import Mathlib

/-!
# verify-linked-ticket-action: a verification development

A shallow embedding of `src/index.js` (a GitHub action that looks for a tracker
link in the pull-request description, checks the ticket over HTTP and reports
back), with the theorems that settle the claims of the specification.

JavaScript strings are modelled as lists of characters (`Str`).  The platform
pieces the source calls (`RegExp`, `String.prototype.match`, `fetch`, the
actions toolkit) are modelled next to the code that calls them: the pattern
language as the fragment of the ECMAScript grammar the source's patterns live
in, the collaborators as parameters of a `World`.
-/

namespace TicketAction

/-- A JavaScript string. -/
abbrev Str := List Char

deriving instance DecidableEq for Except

/-! ## The regular-expression platform (ECMAScript `RegExp`, fragment) -/

/-- SyntaxCharacter of the ECMAScript pattern grammar: `^ $ \ . * + ? ( ) [ ] { } |`. -/
def syntaxChars : List Char :=
  ['^', '$', '\\', '.', '*', '+', '?', '(', ')', '[', ']', '{', '}', '|']

/-- The line terminators, which `.` does not match. -/
def lineTerminators : List Char :=
  ['\n', '\r', Char.ofNat 0x2028, Char.ofNat 0x2029]

/-- The members of the class `\d`. -/
def digitChars : List Char :=
  ['0', '1', '2', '3', '4', '5', '6', '7', '8', '9']

/-- Upper-casing on Basic Latin: `a`..`z` go to `A`..`Z`, every other character stays. -/
def asciiUpper (c : Char) : Char :=
  if 97 ≤ c.toNat ∧ c.toNat ≤ 122 then Char.ofNat (c.toNat - 32) else c

/-- Canonicalize of the ECMAScript pattern semantics (ignoreCase, no unicode
flag).  `upper ch` is `String.prototype.toUpperCase` on the one-character
string `ch` for a character outside Basic Latin (the Unicode table, a
parameter).  A character outside the Basic Multilingual Plane is two code
units for the matcher, each of which is its own canonical form. -/
def canonicalize (upper : Char → Str) (ch : Char) : Char :=
  if ch.toNat < 128 then asciiUpper ch
  else if 65536 ≤ ch.toNat then ch
  else
    match upper ch with
    | [cu] => if cu.toNat < 128 then ch else cu
    | _ => ch

/-- One-character atoms of a pattern. -/
inductive Atom where
  | char (c : Char)
  | dot
  | digit
  deriving DecidableEq, Repr

/-- Patterns of the modelled fragment: sequences of one-character atoms, each
with an optional greedy quantifier, and capturing groups. -/
inductive Regex where
  | empty
  | atom (a : Atom)
  | star (a : Atom)
  | plus (a : Atom)
  | opt (a : Atom)
  | seq (r₁ r₂ : Regex)
  | group (idx : Nat) (r : Regex)
  deriving DecidableEq, Repr

/-- Why `new RegExp` did not produce a pattern. -/
inductive RegExpError where
  | invalid        -- a SyntaxError of the platform
  | unsupported    -- valid or not, outside the modelled fragment
  deriving DecidableEq, Repr

/-- The state of the pattern reader: the terms read so far of the alternative
being read (`done`), its last atom while it may still take a quantifier
(`last`), the enclosing groups with the terms read before each, and the number
of left parentheses seen. -/
structure PState where
  done : Regex
  last : Option Atom
  stack : List (Nat × Regex)
  ngroups : Nat
  deriving DecidableEq, Repr

/-- The terms read so far as one pattern. -/
def PState.flush (st : PState) : Regex :=
  match st.last with
  | none => st.done
  | some a => .seq st.done (.atom a)

/-- Read one more atom. -/
def PState.pushAtom (st : PState) (a : Atom) : PState :=
  { st with done := st.flush, last := some a }

/-- Reads a pattern text.  `\d`, `\` before a syntax character or `/`, `.`,
`( )`, and the greedy quantifiers `* + ?` on a one-character atom are read;
every other character of the syntax set is outside the fragment. -/
def parsePattern : Str → PState → Except RegExpError (Regex × Nat)
  | [], st =>
    match st.stack with
    | [] => .ok (st.flush, st.ngroups)
    | _ :: _ => .error .invalid
  | c :: rest, st =>
    if c = '\\' then
      match rest with
      | [] => .error .invalid
      | e :: rest' =>
        if e = 'd' then parsePattern rest' (st.pushAtom .digit)
        else if e ∈ syntaxChars ∨ e = '/' then parsePattern rest' (st.pushAtom (.char e))
        else .error .unsupported
    else if c = '.' then parsePattern rest (st.pushAtom .dot)
    else if c = '(' then
      match rest with
      | '?' :: _ => .error .unsupported
      | _ => parsePattern rest
          { done := .empty, last := none,
            stack := (st.ngroups + 1, st.flush) :: st.stack, ngroups := st.ngroups + 1 }
    else if c = ')' then
      match st.stack with
      | [] => .error .invalid
      | (i, outer) :: stack' =>
        parsePattern rest
          { done := .seq outer (.group i st.flush), last := none,
            stack := stack', ngroups := st.ngroups }
    else if c = '*' ∨ c = '+' ∨ c = '?' then
      match st.last with
      | none => .error .unsupported
      | some a =>
        let q : Regex := if c = '*' then .star a else if c = '+' then .plus a else .opt a
        parsePattern rest { st with done := .seq st.done q, last := none }
    else if c ∈ syntaxChars then .error .unsupported
    else parsePattern rest (st.pushAtom (.char c))

/-- A compiled pattern: `new RegExp(pattern, flags)`. -/
structure RegExp where
  re : Regex
  ngroups : Nat
  ignoreCase : Bool
  deriving DecidableEq, Repr

/-- The constructor `new RegExp(pattern, flags)`; of the flags only `i` is modelled. -/
def RegExp.new (pattern : Str) (flags : Str) : Except RegExpError RegExp :=
  if flags.all (· = 'i') ∧ flags.length ≤ 1 then
    match parsePattern pattern { done := .empty, last := none, stack := [], ngroups := 0 } with
    | .ok (re, n) => .ok { re := re, ngroups := n, ignoreCase := flags.contains 'i' }
    | .error e => .error e
  else .error .unsupported

/-- The captures of a match in progress, by group number. -/
abbrev Caps := Nat → Option Str

/-- A continuation of the backtracking matcher: the rest of the pattern. -/
abbrev Cont := Str → Caps → Option (Str × Caps)

/-- Does the atom match the character?  `canon` is Canonicalize when the
pattern ignores case and the identity otherwise. -/
def atomMatches (canon : Char → Char) : Atom → Char → Bool
  | .char c, x => canon x == canon c
  | .dot, x => !lineTerminators.contains x
  | .digit, x => digitChars.any fun a => canon a == canon x

/-- Greedy repetition of a one-character atom: one more character first, the
rest of the pattern when that fails. -/
def greedy (canon : Char → Char) (a : Atom) : Str → Caps → Cont → Option (Str × Caps)
  | [], caps, k => k [] caps
  | x :: s, caps, k =>
    if atomMatches canon a x then
      (greedy canon a s caps k).orElse fun _ => k (x :: s) caps
    else k (x :: s) caps

/-- The backtracking matcher of the ECMAScript pattern semantics on the rest of
the input: `k` is the rest of the pattern. -/
def matchRe (canon : Char → Char) : Regex → Str → Caps → Cont → Option (Str × Caps)
  | .empty, s, caps, k => k s caps
  | .atom a, s, caps, k =>
    match s with
    | [] => none
    | x :: s' => if atomMatches canon a x then k s' caps else none
  | .star a, s, caps, k => greedy canon a s caps k
  | .plus a, s, caps, k =>
    match s with
    | [] => none
    | x :: s' => if atomMatches canon a x then greedy canon a s' caps k else none
  | .opt a, s, caps, k =>
    match s with
    | [] => k [] caps
    | x :: s' =>
      if atomMatches canon a x then (k s' caps).orElse fun _ => k (x :: s') caps
      else k (x :: s') caps
  | .seq r₁ r₂, s, caps, k => matchRe canon r₁ s caps fun s' caps' => matchRe canon r₂ s' caps' k
  | .group i r, s, caps, k =>
    matchRe canon r s caps fun s' caps' =>
      k s' (Function.update caps' i (some (s.take (s.length - s'.length))))

/-- The canonical form the pattern compares characters in. -/
def RegExp.canon (upper : Char → Str) (r : RegExp) : Char → Char :=
  if r.ignoreCase then canonicalize upper else id

/-- A match that begins at the start of `s`: the array `[whole, group 1, ..]`. -/
def RegExp.matchAt (upper : Char → Str) (r : RegExp) (s : Str) : Option (List (Option Str)) :=
  (matchRe (r.canon upper) r.re s (fun _ => none) fun s' caps => some (s', caps)).map
    fun (s', caps) =>
      some (s.take (s.length - s'.length)) :: (List.range r.ngroups).map fun i => caps (i + 1)

/-- RegExpBuiltinExec for a pattern without the global and sticky flags: the
first position of the input a match begins at, from the left. -/
def RegExp.exec (upper : Char → Str) (r : RegExp) : Str → Option (List (Option Str))
  | [] => r.matchAt upper []
  | x :: s => (r.matchAt upper (x :: s)).orElse fun _ => r.exec upper s

/-- The method `String.prototype.match` with a pattern without the global flag. -/
def jsMatch (upper : Char → Str) (text : Str) (r : RegExp) : Option (List (Option Str)) :=
  r.exec upper text

/-! ## JavaScript values -/

/-- The value of a string-or-undefined when it is truthy: present and not empty. -/
def truthy : Option Str → Option Str
  | some (c :: s) => some (c :: s)
  | _ => none

/-- The operator `a || b` on a string-or-undefined with a string fallback. -/
def jsOr (a : Option Str) (b : Str) : Str :=
  match truthy a with
  | some v => v
  | none => b

/-- A string-or-undefined inside a template literal or a concatenation. -/
def render : Option Str → Str
  | some s => s
  | none => "undefined".toList

/-- A number inside a template literal. -/
def renderNat (n : Nat) : Str := Nat.toDigits 10 n

/-- A number-or-undefined inside a template literal. -/
def renderOptNat : Option Nat → Str
  | some n => renderNat n
  | none => "undefined".toList

/-- A boolean inside a template literal. -/
def renderBool : Bool → Str
  | true => "true".toList
  | false => "false".toList

/-- A thrown `Error`: its `message` and its `stack`. -/
structure JsError where
  message : Str
  stack : Option Str
  deriving DecidableEq, Repr

/-! ## The collaborators -/

/-- The request `fetch` is called with. -/
structure Request where
  url : Str
  method : Str
  headers : List (Str × Str)
  deriving DecidableEq, Repr

/-- A response of `fetch`: the status, and what `response.text()` gives. -/
structure Response where
  status : Nat
  text : Except JsError Str
  deriving DecidableEq, Repr

/-- The getter `response.ok` of the Fetch standard: the status is in 200..299. -/
def Response.ok (r : Response) : Bool :=
  decide (200 ≤ r.status ∧ r.status ≤ 299)

/-- The parameters of `octokit.rest.issues.createComment`. -/
structure CommentParams where
  issue_number : Option Nat
  owner : Str
  repo : Str
  body : Str
  deriving DecidableEq, Repr

/-- An authenticated client of the host platform: its create-comment operation. -/
structure Octokit where
  createComment : CommentParams → Except JsError Unit

/-- The pull request of the event payload. -/
structure PullRequest where
  body : Option Str
  deriving DecidableEq, Repr

/-- The part of `github.context` the action reads. -/
structure Context where
  owner : Str
  repo : Str
  issueNumber : Option Nat
  pull_request : Option PullRequest
  deriving DecidableEq, Repr

/-- The part of `process.env` the action reads. -/
structure Env where
  BASE_URL : Option Str
  API_URL : Option Str
  API_KEY : Option Str
  MESSAGE : Option Str
  GITHUB_TOKEN : Option Str
  deriving DecidableEq, Repr

/-- Everything outside the action: the environment, the input `message`
(`core.getInput` gives the empty string for an input that is not set), the
event context, `github.getOctokit`, `fetch`, and of the platform the Unicode
upper-case table, the `stack` of a `new Error` and the error `new RegExp`
throws. -/
structure World where
  env : Env
  messageInput : Str
  context : Context
  getOctokit : Option Str → Except JsError Octokit
  fetch : Request → Except JsError Response
  upper : Char → Str
  errorStack : Option Str
  regExpError : RegExpError → JsError

/-- What the action does to the outside, in order. -/
inductive Event where
  | debug (msg : Str)
  | info (msg : Str)
  | error (msg : Str)
  | setFailed (msg : Str)
  | fetch (req : Request)
  | createComment (params : CommentParams)
  deriving DecidableEq, Repr

/-- The messages the run was marked failed with. -/
def failures : List Event → List Str
  | [] => []
  | .setFailed m :: es => m :: failures es
  | _ :: es => failures es

/-- The bodies of the comments the run attempted to post. -/
def comments : List Event → List Str
  | [] => []
  | .createComment p :: es => p.body :: comments es
  | _ :: es => comments es

/-- The tracker lookups the run issued. -/
def lookups : List Event → List Request
  | [] => []
  | .fetch r :: es => r :: lookups es
  | _ :: es => lookups es

/-! ## `Config` -/

/-- The class `Config`. -/
structure Config where
  context : Context
  baseUrl : Str
  apiUrl : Str
  apiKey : Str
  message : Str
  token : Str
  octokit : Octokit

/-- The default of `Config.message`. -/
def defaultMessage : Str := "请添加 ticket 链接!".toList

/-- The method `Config.validateConfig`, on the two fields it reads: it throws
unless both are truthy, and gives them back as the strings they then are. -/
def Config.validateConfig (w : World) (baseUrl token : Option Str) :
    Except JsError (Str × Str) :=
  match truthy baseUrl with
  | none => .error ⟨"BASE_URL environment variable is required".toList, w.errorStack⟩
  | some b =>
    match truthy token with
    | none => .error ⟨"GITHUB_TOKEN environment variable is required".toList, w.errorStack⟩
    | some t => .ok (b, t)

/-- The constructor of `Config`: the fields are read in the order of the
source, `getOctokit` is called before `validateConfig`. -/
def Config.new (w : World) : Except JsError Config :=
  let context := w.context
  let baseUrl := w.env.BASE_URL
  let apiUrl := render w.env.API_URL ++ "/api".toList
  let apiKey := jsOr w.env.API_KEY []
  let message := jsOr (some w.messageInput) (jsOr w.env.MESSAGE defaultMessage)
  let token := w.env.GITHUB_TOKEN
  match w.getOctokit token with
  | .error e => .error e
  | .ok octokit =>
    match Config.validateConfig w baseUrl token with
    | .error e => .error e
    | .ok (b, t) =>
      .ok { context := context, baseUrl := b, apiUrl := apiUrl, apiKey := apiKey,
            message := message, token := t, octokit := octokit }

/-! ## `TicketMatcher` -/

/-- The class `TicketMatcher`. -/
structure TicketMatcher where
  baseUrl : Str
  deriving DecidableEq, Repr

/-- The pair `{ projectId, ticketId }`; a field is `none` for `undefined`. -/
structure TicketInfo where
  projectId : Option Str
  ticketId : Option Str
  deriving DecidableEq, Repr

/-- The replacement `s.replace(/[.*+?^${}()|[\]\\]/g, '\\$&')`: a backslash before
every character of the class. -/
def escapeRegExp : Str → Str
  | [] => []
  | c :: s =>
    if c ∈ ['.', '*', '+', '?', '^', '$', '{', '}', '(', ')', '|', '[', ']', '\\'] then
      '\\' :: c :: escapeRegExp s
    else c :: escapeRegExp s

/-- The text after the escaped base URL in the template of `getRegex`:
`\/projects\/(\d+)\/tickets\/(\d+)`. -/
def linkPatternTail : Str := "\\/projects\\/(\\d+)\\/tickets\\/(\\d+)".toList

/-- The method `TicketMatcher.getRegex`. -/
def TicketMatcher.getRegex (self : TicketMatcher) : Except RegExpError RegExp :=
  let escapedUrl := escapeRegExp self.baseUrl
  RegExp.new (escapedUrl ++ linkPatternTail) "i".toList

/-- The method `TicketMatcher.extractTicketInfo`; `text` is `none` for an absent (null or
undefined) text.  An exception of `getRegex` is the `.error` result. -/
def TicketMatcher.extractTicketInfo (upper : Char → Str) (self : TicketMatcher)
    (text : Option Str) : Except RegExpError (Option TicketInfo) :=
  match self.getRegex with
  | .error e => .error e
  | .ok regex =>
    match jsMatch upper (jsOr text []) regex with
    | none => .ok none
    | some ms =>
      if ms.length < 3 then .ok none
      else .ok (some { projectId := (ms.get? 1).join, ticketId := (ms.get? 2).join })

/-! ## `TicketAPI` -/

/-- The class `TicketAPI`. -/
structure TicketAPI where
  apiUrl : Str
  apiKey : Str
  deriving DecidableEq, Repr

/-- The result object of `TicketAPI.verifyTicket`; an absent field is `none`. -/
structure VerificationResult where
  isValid : Bool
  status : Option Nat
  error : Option Str
  deriving DecidableEq, Repr

/-- The request of `TicketAPI.verifyTicket`: the spread adds `X-API-KEY` when
`this.apiKey` is truthy. -/
def TicketAPI.request (self : TicketAPI) (projectId ticketId : Option Str) : Request :=
  { url := self.apiUrl ++ "/projects/".toList ++ render projectId ++ "/tickets/".toList
      ++ render ticketId
    method := "GET".toList
    headers := ("Content-Type".toList, "application/json".toList) ::
      (match truthy (some self.apiKey) with
       | some key => [("X-API-KEY".toList, key)]
       | none => []) }

/-- The method `TicketAPI.verifyTicket`: the result and what it did. -/
def TicketAPI.verifyTicket (w : World) (self : TicketAPI) (projectId ticketId : Option Str) :
    VerificationResult × List Event :=
  let req := self.request projectId ticketId
  match w.fetch req with
  | .error error =>
    ({ isValid := false, status := none, error := some error.message },
     [.fetch req, .debug ("API error: ".toList ++ error.message)])
  | .ok response =>
    let d₁ := Event.debug ("Response: ".toList ++ renderBool response.ok ++ " - ".toList
      ++ renderNat response.status)
    match response.text with
    | .error error =>
      ({ isValid := false, status := none, error := some error.message },
       [.fetch req, d₁, .debug ("API error: ".toList ++ error.message)])
    | .ok body =>
      ({ isValid := response.ok, status := some response.status, error := none },
       [.fetch req, d₁, .debug ("Response body: ".toList ++ body)])

/-! ## `GitHubCommenter` -/

/-- The class `GitHubCommenter`. -/
structure GitHubCommenter where
  octokit : Octokit
  context : Context

/-- The method `GitHubCommenter.addComment`: a failure of the call is reported and
swallowed. -/
def GitHubCommenter.addComment (self : GitHubCommenter) (message : Str) : List Event :=
  let params : CommentParams :=
    { issue_number := self.context.issueNumber, owner := self.context.owner,
      repo := self.context.repo, body := message }
  match self.octokit.createComment params with
  | .ok _ => [.createComment params, .debug "Comment added successfully".toList]
  | .error error =>
    [.createComment params, .error ("Failed to add comment: ".toList ++ error.message)]

/-! ## `TicketVerificationAction` -/

/-- The class `TicketVerificationAction`. -/
structure TicketVerificationAction where
  config : Config
  matcher : TicketMatcher
  api : TicketAPI
  commenter : GitHubCommenter

/-- The constructor of `TicketVerificationAction`. -/
def TicketVerificationAction.new (w : World) : Except JsError TicketVerificationAction :=
  match Config.new w with
  | .error e => .error e
  | .ok config =>
    .ok { config := config
          matcher := { baseUrl := config.baseUrl }
          api := { apiUrl := config.apiUrl, apiKey := config.apiKey }
          commenter := { octokit := config.octokit, context := config.context } }

/-- The method `TicketVerificationAction.handleMissingTicket`. -/
def TicketVerificationAction.handleMissingTicket (self : TicketVerificationAction)
    (reason : Str) : List Event :=
  [.error ("❌ Ticket verification failed: ".toList ++ reason), .setFailed reason]
    ++ self.commenter.addComment self.config.message

/-- The reason `TicketVerificationAction.verifyTicket` fails the run with;
`result.statusText` is a field no result has. -/
def failureReason (result : VerificationResult) (projectId ticketId : Option Str) : Str :=
  let errorMessage :=
    match truthy result.error with
    | some error => "Error verifying ticket: ".toList ++ error
    | none => "Invalid ticket: Status ".toList ++ renderOptNat result.status ++ " ".toList
        ++ render none
  errorMessage ++ " for Project ID: ".toList ++ render projectId ++ ", Ticket ID: ".toList
    ++ render ticketId

/-- The method `TicketVerificationAction.verifyTicket`. -/
def TicketVerificationAction.verifyTicket (w : World) (self : TicketVerificationAction)
    (ticketInfo : TicketInfo) : List Event :=
  let projectId := ticketInfo.projectId
  let ticketId := ticketInfo.ticketId
  let e₁ := Event.info ("Verifying ticket - Project ID: ".toList ++ render projectId
    ++ ", Ticket ID: ".toList ++ render ticketId)
  let (result, es) := self.api.verifyTicket w projectId ticketId
  if result.isValid then
    e₁ :: es ++ [.info "✅ Ticket verification successful!".toList]
  else
    e₁ :: es ++ self.handleMissingTicket (failureReason result projectId ticketId)

/-- The method `TicketVerificationAction.run`: whatever is thrown inside is caught once. -/
def TicketVerificationAction.run (w : World) (self : TicketVerificationAction) : List Event :=
  let prBody := jsOr (self.config.context.pull_request.bind (·.body)) []
  match self.matcher.extractTicketInfo w.upper (some prBody) with
  | .error e =>
    let error := w.regExpError e
    .setFailed ("Unhandled error: ".toList ++ error.message) ::
      (match truthy error.stack with
       | some stack => [.debug stack]
       | none => [])
  | .ok none =>
    self.handleMissingTicket "No ticket link found in the pull request description.".toList
  | .ok (some ticketInfo) => self.verifyTicket w ticketInfo

/-- The function `run` the module executes: an exception of the constructor is
not caught, and nothing has been done to the outside when it is thrown. -/
def run (w : World) : Except JsError Unit × List Event :=
  match TicketVerificationAction.new w with
  | .error e => (.error e, [])
  | .ok action => (.ok (), action.run w)

/-! ## Definitions of the statements and the proofs

The link pattern read directly, links declaratively, and example worlds. -/

/-- The decimal digits, as a test. -/
def isDig (c : Char) : Bool := digitChars.contains c

/-- The pattern that reads the characters of `cs` literally after `r`. -/
def litsOnto (r : Regex) : Str → Regex
  | [] => r
  | c :: cs => litsOnto (.seq r (.atom (.char c))) cs

/-- The group `(\d+)` with number `i`. -/
def digitsGroup (i : Nat) : Regex := .group i (.seq .empty (.plus .digit))

/-- The pattern `getRegex` compiles for the base URL `b`. -/
def linkRegex (b : Str) : Regex :=
  .seq (litsOnto (.seq (litsOnto .empty (b ++ "/projects/".toList)) (digitsGroup 1))
    "/tickets/".toList) (digitsGroup 2)

/-- The reader after the characters of `cs`, each read as itself. -/
def readLits (st : PState) : Str → PState
  | [] => st
  | c :: cs => readLits (st.pushAtom (.char c)) cs

/-- The input after a prefix that is `cs` in canonical form, when it has one. -/
def stripCI (canon : Char → Char) : Str → Str → Option Str
  | [], s => some s
  | _ :: _, [] => none
  | c :: cs, x :: s => if canon x == canon c then stripCI canon cs s else none

/-- The link at the start of `s`, read directly: the base URL and `/projects/`
in canonical form, the longest run of digits, `/tickets/`, the longest run of
digits.  The result is the two runs and the input after the link. -/
def linkAt (canon : Char → Char) (b s : Str) : Option (Str × Str × Str) :=
  match stripCI canon (b ++ "/projects/".toList) s with
  | none => none
  | some s₁ =>
    if s₁.takeWhile isDig = [] then none
    else
      match stripCI canon "/tickets/".toList (s₁.dropWhile isDig) with
      | none => none
      | some s₂ =>
        if s₂.takeWhile isDig = [] then none
        else some (s₁.takeWhile isDig, s₂.takeWhile isDig, s₂.dropWhile isDig)

/-- The first link of `s` from the left. -/
def findLink (canon : Char → Char) (b : Str) : Str → Option (Str × Str × Str)
  | [] => linkAt canon b []
  | x :: s => (linkAt canon b (x :: s)).orElse fun _ => findLink canon b s

/-- The match array of a link that begins at the start of `s`. -/
def linkArray (s : Str) (r : Str × Str × Str) : List (Option Str) :=
  [some (s.take (s.length - r.2.2.length)), some r.1, some r.2.1]

/-- The reference of a link. -/
def linkInfo (r : Str × Str × Str) : TicketInfo :=
  { projectId := some r.1, ticketId := some r.2.1 }

/-- What `extractTicketInfo` makes of a match array. -/
def arrayInfo (ms : List (Option Str)) : Option TicketInfo :=
  if ms.length < 3 then none
  else some { projectId := (ms.get? 1).join, ticketId := (ms.get? 2).join }

/-- The text `w` is a link of the tracker at `b`: up to letter case (equal
canonical forms), `b` followed by `/projects/`, one or more digits, `/tickets/`
and one or more digits. -/
def IsLink (canon : Char → Char) (b w : Str) : Prop :=
  ∃ p t : Str, p ≠ [] ∧ (∀ c ∈ p, c ∈ digitChars) ∧ t ≠ [] ∧ (∀ c ∈ t, c ∈ digitChars) ∧
    w.map canon = (b ++ "/projects/".toList ++ p ++ "/tickets/".toList ++ t).map canon

/-- The text has a substring that is a link. -/
def ContainsLink (canon : Char → Char) (b text : Str) : Prop :=
  ∃ pre w post : Str, text = pre ++ w ++ post ∧ IsLink canon b w

/-- A link begins at the start of `s`. -/
def LinkBeginsAt (canon : Char → Char) (b s : Str) : Prop :=
  ∃ w post : Str, s = w ++ post ∧ IsLink canon b w

/-! ## Example worlds -/

/-- A client whose create-comment operation succeeds. -/
def demoOctokit : Octokit := ⟨fun _ => .ok ()⟩

/-- A pull-request event of `octo/repo`, number 7, with the given description. -/
def demoContext (body : Option Str) : Context :=
  { owner := "octo".toList, repo := "repo".toList, issueNumber := some 7,
    pull_request := some { body := body } }

/-- A world with the tracker at `https://tracker.example.com`, the given
API key, pull-request description and `fetch`. -/
def demoWorld (apiKey : Option Str) (body : Option Str)
    (fetch : Request → Except JsError Response) : World :=
  { env :=
      { BASE_URL := some "https://tracker.example.com".toList
        API_URL := some "https://tracker.example.com".toList
        API_KEY := apiKey
        MESSAGE := none
        GITHUB_TOKEN := some "ghp_token".toList }
    messageInput := "Please link a ticket.".toList
    context := demoContext body
    getOctokit := fun _ => .ok demoOctokit
    fetch := fetch
    upper := fun c => [c]
    errorStack := none
    regExpError := fun _ => ⟨"Invalid regular expression".toList, none⟩ }

/-- The action the constructor builds in `demoWorld`. -/
def demoAction (apiKey : Option Str) (body : Option Str) : TicketVerificationAction :=
  { config :=
      { context := demoContext body
        baseUrl := "https://tracker.example.com".toList
        apiUrl := "https://tracker.example.com/api".toList
        apiKey := jsOr apiKey []
        message := "Please link a ticket.".toList
        token := "ghp_token".toList
        octokit := demoOctokit }
    matcher := { baseUrl := "https://tracker.example.com".toList }
    api := { apiUrl := "https://tracker.example.com/api".toList, apiKey := jsOr apiKey [] }
    commenter := { octokit := demoOctokit, context := demoContext body } }

/-- A tracker that answers every request with the given status. -/
def answerWith (status : Nat) : Request → Except JsError Response :=
  fun _ => .ok { status := status, text := .ok "{}".toList }

/-- A tracker that cannot be reached: `fetch` throws with the given message. -/
def failWith (message : Str) : Request → Except JsError Response :=
  fun _ => .error { message := message, stack := none }

/-- A tracker that answers every request with the given status and a body that
cannot be read: `response.text()` throws with the given message. -/
def unreadableWith (status : Nat) (message : Str) : Request → Except JsError Response :=
  fun _ => .ok { status := status, text := .error { message := message, stack := none } }

/-! ## Facts about characters -/

theorem ascii_cases (P : Char → Prop) (h : ∀ n, n < 128 → P (Char.ofNat n)) (x : Char)
    (hx : x.toNat < 128) : P x := by
  have := h x.toNat hx
  simpa using this

theorem asciiUpper_of_ge (x : Char) (hx : 128 ≤ x.toNat) : asciiUpper x = x := by
  unfold asciiUpper
  rw [if_neg]
  omega

set_option maxRecDepth 100000 in
theorem asciiUpper_toNat_lt (x : Char) (hx : x.toNat < 128) : (asciiUpper x).toNat < 128 := by
  have h : ∀ n, n < 128 → (asciiUpper (Char.ofNat n)).toNat < 128 := by decide
  exact ascii_cases (fun x => (asciiUpper x).toNat < 128) h x hx

set_option maxRecDepth 100000 in
theorem asciiUpper_idem (x : Char) : asciiUpper (asciiUpper x) = asciiUpper x := by
  by_cases hx : x.toNat < 128
  · have h : ∀ n, n < 128 →
        asciiUpper (asciiUpper (Char.ofNat n)) = asciiUpper (Char.ofNat n) := by decide
    exact ascii_cases (fun x => asciiUpper (asciiUpper x) = asciiUpper x) h x hx
  · rw [asciiUpper_of_ge x (by omega), asciiUpper_of_ge x (by omega)]

set_option maxRecDepth 100000 in
theorem asciiUpper_isDig (x : Char) : isDig (asciiUpper x) = isDig x := by
  by_cases hx : x.toNat < 128
  · have h : ∀ n, n < 128 → isDig (asciiUpper (Char.ofNat n)) = isDig (Char.ofNat n) := by
      decide
    exact ascii_cases (fun x => isDig (asciiUpper x) = isDig x) h x hx
  · rw [asciiUpper_of_ge x (by omega)]

set_option maxRecDepth 100000 in
theorem asciiUpper_of_isDig (x : Char) (hx : isDig x = true) : asciiUpper x = x := by
  by_cases hx' : x.toNat < 128
  · have h : ∀ n, n < 128 → isDig (Char.ofNat n) = true →
        asciiUpper (Char.ofNat n) = Char.ofNat n := by decide
    exact ascii_cases (fun x => isDig x = true → asciiUpper x = x) h x hx' hx
  · exact asciiUpper_of_ge x (by omega)

theorem isDig_toNat_lt (x : Char) (hx : isDig x = true) : x.toNat < 128 := by
  simp [isDig, digitChars] at hx
  rcases hx with h | h | h | h | h | h | h | h | h | h <;> subst h <;> decide

set_option maxRecDepth 100000 in
theorem asciiUpper_eq_dig (x a : Char) (hx : x.toNat < 128) (ha : isDig a = true)
    (h : asciiUpper x = a) : x = a := by
  have h' : ∀ n, n < 128 → ∀ a, isDig a = true → asciiUpper (Char.ofNat n) = a →
      Char.ofNat n = a := by
    intro n hn a ha
    revert n
    simp [isDig, digitChars] at ha
    rcases ha with h | h | h | h | h | h | h | h | h | h <;> subst h <;> decide
  exact ascii_cases (fun x => ∀ a, isDig a = true → asciiUpper x = a → x = a) h' x hx a ha h

theorem canonicalize_of_lt (upper : Char → Str) (x : Char) (hx : x.toNat < 128) :
    canonicalize upper x = asciiUpper x := by
  unfold canonicalize
  rw [if_pos hx]

theorem canonicalize_toNat_ge (upper : Char → Str) (x : Char) (hx : 128 ≤ x.toNat) :
    128 ≤ (canonicalize upper x).toNat := by
  unfold canonicalize
  rw [if_neg (by omega)]
  split
  · assumption
  · split
    · split
      · assumption
      · omega
    · assumption

/-- A digit is its own canonical form. -/
theorem canonicalize_dig (upper : Char → Str) (a : Char) (ha : isDig a = true) :
    canonicalize upper a = a := by
  rw [canonicalize_of_lt upper a (isDig_toNat_lt a ha), asciiUpper_of_isDig a ha]

/-- Only a digit has the canonical form of a digit. -/
theorem canonicalize_eq_dig (upper : Char → Str) (x a : Char) (ha : isDig a = true)
    (h : canonicalize upper x = canonicalize upper a) : x = a := by
  rw [canonicalize_dig upper a ha] at h
  by_cases hx : x.toNat < 128
  · rw [canonicalize_of_lt upper x hx] at h
    exact asciiUpper_eq_dig x a hx ha h
  · have h1 := canonicalize_toNat_ge upper x (by omega)
    have h2 := isDig_toNat_lt a ha
    rw [h] at h1
    omega

/-- The canonical form does not see the case of a Basic Latin letter. -/
theorem canonicalize_asciiUpper (upper : Char → Str) (x : Char) :
    canonicalize upper (asciiUpper x) = canonicalize upper x := by
  by_cases hx : x.toNat < 128
  · rw [canonicalize_of_lt upper x hx,
      canonicalize_of_lt upper _ (asciiUpper_toNat_lt x hx), asciiUpper_idem]
  · rw [asciiUpper_of_ge x (by omega)]

/-- The class `\d` under ignoreCase is the ten digits. -/
theorem atomMatches_digit (upper : Char → Str) (x : Char) :
    atomMatches (canonicalize upper) .digit x = isDig x := by
  unfold atomMatches
  by_cases hx : isDig x = true
  · rw [hx, List.any_eq_true]
    exact ⟨x, by simpa [isDig] using hx, by simp⟩
  · have hx' : isDig x = false := by simpa using hx
    rw [hx', List.any_eq_false]
    intro a ha hc
    have ha' : isDig a = true := by simpa [isDig] using ha
    have := canonicalize_eq_dig upper x a ha' (beq_iff_eq.mp hc).symm
    rw [this] at hx
    exact hx ha'

/-! ## The pattern of `getRegex` -/

theorem litsOnto_append (r : Regex) (a b : Str) :
    litsOnto r (a ++ b) = litsOnto (litsOnto r a) b := by
  induction a generalizing r with
  | nil => rfl
  | cons c a ih => exact ih _

theorem readLits_flush (st : PState) (cs : Str) :
    (readLits st cs).flush = litsOnto st.flush cs := by
  induction cs generalizing st with
  | nil => rfl
  | cons c cs ih => rw [readLits, ih]; rfl

theorem readLits_stack (st : PState) (cs : Str) :
    (readLits st cs).stack = st.stack ∧ (readLits st cs).ngroups = st.ngroups := by
  induction cs generalizing st with
  | nil => exact ⟨rfl, rfl⟩
  | cons c cs ih => rw [readLits]; exact ih _

/-- The escaped text of a base URL is read as the characters of the base URL. -/
theorem parsePattern_escapeRegExp (b rest : Str) (st : PState) :
    parsePattern (escapeRegExp b ++ rest) st = parsePattern rest (readLits st b) := by
  induction b generalizing st with
  | nil => rfl
  | cons c b ih =>
    by_cases hc : c ∈ ['.', '*', '+', '?', '^', '$', '{', '}', '(', ')', '|', '[', ']', '\\']
    · have hs : c ∈ syntaxChars := by
        simp only [List.mem_cons, List.mem_singleton, List.not_mem_nil, or_false] at hc
        simp only [syntaxChars, List.mem_cons, List.mem_singleton, List.not_mem_nil, or_false]
        tauto
      have hd : c ≠ 'd' := by
        intro h; subst h; revert hc; decide
      rw [escapeRegExp, if_pos hc, readLits, ← ih]
      simp only [List.cons_append]
      rw [parsePattern, if_pos rfl]
      simp only [hd, if_false, hs, true_or, if_true]
    · have hn : c ∉ syntaxChars := by
        simp only [List.mem_cons, List.mem_singleton, List.not_mem_nil, or_false] at hc
        simp only [syntaxChars, List.mem_cons, List.mem_singleton, List.not_mem_nil, or_false]
        tauto
      rw [escapeRegExp, if_neg hc, readLits, ← ih]
      simp only [List.cons_append]
      have h1 : c ≠ '\\' := fun h => hn (by subst h; decide)
      have h2 : c ≠ '.' := fun h => hn (by subst h; decide)
      have h3 : c ≠ '(' := fun h => hn (by subst h; decide)
      have h4 : c ≠ ')' := fun h => hn (by subst h; decide)
      have h5 : c ≠ '*' := fun h => hn (by subst h; decide)
      have h6 : c ≠ '+' := fun h => hn (by subst h; decide)
      have h7 : c ≠ '?' := fun h => hn (by subst h; decide)
      rw [parsePattern.eq_def]
      simp only [h1, h2, h3, h4, h5, h6, h7, hn, if_false, or_self]

/-- The tail of the template is read as two digit groups around `/tickets/`. -/
theorem parsePattern_linkPatternTail (d : Regex) (l : Option Atom) :
    parsePattern linkPatternTail ⟨d, l, [], 0⟩ =
      .ok (.seq (litsOnto (.seq (litsOnto (PState.flush ⟨d, l, [], 0⟩) "/projects/".toList)
        (digitsGroup 1)) "/tickets/".toList) (digitsGroup 2), 2) := by
  rfl

/-- For every base URL `getRegex` returns a pattern: the link pattern, with two
groups, ignoring case. -/
theorem getRegex_eq (b : Str) :
    TicketMatcher.getRegex ⟨b⟩ = .ok ⟨linkRegex b, 2, true⟩ := by
  have h : parsePattern (escapeRegExp b ++ linkPatternTail) ⟨.empty, none, [], 0⟩ =
      .ok (linkRegex b, 2) := by
    rw [parsePattern_escapeRegExp]
    have hs := readLits_stack ⟨.empty, none, [], 0⟩ b
    have hf := readLits_flush ⟨.empty, none, [], 0⟩ b
    generalize readLits ⟨.empty, none, [], 0⟩ b = st at hs hf
    obtain ⟨d, l, stk, n⟩ := st
    simp only at hs
    obtain ⟨h1, h2⟩ := hs
    subst h1; subst h2
    rw [parsePattern_linkPatternTail, hf, linkRegex, litsOnto_append]
    rfl
  unfold TicketMatcher.getRegex RegExp.new
  simp only [h]
  rfl

/-! ## What the link pattern matches -/

theorem matchRe_seq (canon : Char → Char) (r₁ r₂ : Regex) (s : Str) (caps : Caps) (k : Cont) :
    matchRe canon (.seq r₁ r₂) s caps k =
      matchRe canon r₁ s caps fun s' caps' => matchRe canon r₂ s' caps' k := rfl

theorem matchRe_empty (canon : Char → Char) (s : Str) (caps : Caps) (k : Cont) :
    matchRe canon .empty s caps k = k s caps := rfl

theorem matchRe_atom_char (canon : Char → Char) (c : Char) (s : Str) (caps : Caps) (k : Cont) :
    matchRe canon (.atom (.char c)) s caps k =
      match stripCI canon [c] s with
      | some s' => k s' caps
      | none => none := by
  cases s with
  | nil => rfl
  | cons x s =>
    simp only [matchRe, atomMatches, stripCI]
    split <;> rfl

theorem stripCI_cons (canon : Char → Char) (c : Char) (cs s : Str) :
    stripCI canon (c :: cs) s = (stripCI canon [c] s).bind (stripCI canon cs) := by
  cases s with
  | nil => rfl
  | cons x s =>
    simp only [stripCI]
    split <;> rfl

/-- A run of literal characters matches a prefix in canonical form. -/
theorem matchRe_litsOnto (canon : Char → Char) (r : Regex) (cs s : Str) (caps : Caps)
    (k : Cont) :
    matchRe canon (litsOnto r cs) s caps k =
      matchRe canon r s caps fun s' caps' =>
        match stripCI canon cs s' with
        | some s'' => k s'' caps'
        | none => none := by
  induction cs generalizing r k with
  | nil => rfl
  | cons c cs ih =>
    rw [litsOnto, ih, matchRe_seq]
    congr 1
    funext s' caps'
    rw [matchRe_atom_char]
    conv_rhs => rw [stripCI_cons]
    cases stripCI canon [c] s' <;> rfl

/-- Greedy repetition ends at the longest run when the rest of the pattern
either cannot begin with a character of the run or never fails. -/
theorem greedy_eq (canon : Char → Char) (a : Atom) (s : Str) (caps : Caps) (k : Cont)
    (hk : (∀ x s' c, atomMatches canon a x = true → k (x :: s') c = none) ∨
      (∀ s' c, (k s' c).isSome = true)) :
    greedy canon a s caps k = k (s.dropWhile (atomMatches canon a)) caps := by
  induction s with
  | nil => rfl
  | cons x s ih =>
    rw [greedy]
    by_cases hx : atomMatches canon a x = true
    · rw [if_pos hx, List.dropWhile_cons_of_pos hx, ih]
      rcases hk with hk | hk
      · rw [hk x s caps hx]
        cases k (List.dropWhile (atomMatches canon a) s) caps <;> rfl
      · have := hk (List.dropWhile (atomMatches canon a) s) caps
        revert this
        cases k (List.dropWhile (atomMatches canon a) s) caps <;> simp [Option.orElse]
    · rw [if_neg hx, List.dropWhile_cons_of_neg hx]

theorem take_length_sub_dropWhile (p : Char → Bool) (s : Str) :
    s.take (s.length - (s.dropWhile p).length) = s.takeWhile p := by
  have h := List.takeWhile_append_dropWhile p s
  have hl : s.length = (s.takeWhile p).length + (s.dropWhile p).length := by
    conv_lhs => rw [← h]
    exact List.length_append _ _
  rw [hl, Nat.add_sub_cancel]
  have ht := List.take_left (s.takeWhile p) (s.dropWhile p)
  rw [h] at ht
  exact ht

/-- The group `(\d+)` captures the longest run of digits, which is not empty. -/
theorem matchRe_digitsGroup (upper : Char → Str) (i : Nat) (s : Str) (caps : Caps) (k : Cont)
    (hk : (∀ x s' c, isDig x = true → k (x :: s') c = none) ∨
      (∀ s' c, (k s' c).isSome = true)) :
    matchRe (canonicalize upper) (digitsGroup i) s caps k =
      if s.takeWhile isDig = [] then none
      else k (s.dropWhile isDig) (Function.update caps i (some (s.takeWhile isDig))) := by
  have hd : atomMatches (canonicalize upper) .digit = isDig :=
    funext (atomMatches_digit upper)
  cases s with
  | nil => rfl
  | cons x s =>
    simp only [digitsGroup, matchRe]
    rw [atomMatches_digit]
    by_cases hx : isDig x = true
    · rw [if_pos hx, List.takeWhile_cons_of_pos hx, if_neg (List.cons_ne_nil _ _),
        List.dropWhile_cons_of_pos hx, greedy_eq, hd]
      · have h := take_length_sub_dropWhile isDig (x :: s)
        rw [List.dropWhile_cons_of_pos hx, List.takeWhile_cons_of_pos hx] at h
        rw [h]
      · rw [hd]
        rcases hk with hk | hk
        · exact Or.inl fun y s' c hy => hk y s' _ hy
        · exact Or.inr fun s' c => hk s' _
    · rw [if_neg hx, List.takeWhile_cons_of_neg hx, if_pos rfl]

theorem stripCI_tickets_dig (upper : Char → Str) (x : Char) (s : Str) (hx : isDig x = true) :
    stripCI (canonicalize upper) "/tickets/".toList (x :: s) = none := by
  have h : (canonicalize upper x == canonicalize upper '/') = false := by
    rw [beq_eq_false_iff_ne]
    intro h
    have := canonicalize_eq_dig upper '/' x hx h.symm
    subst this
    revert hx
    decide
  show (if (canonicalize upper x == canonicalize upper '/') = true then _ else none) = none
  rw [h]
  rfl

/-- The link pattern at the start of `s` is the link read directly. -/
theorem matchRe_linkRegex (upper : Char → Str) (b s : Str) (c₀ : Caps) :
    matchRe (canonicalize upper) (linkRegex b) s c₀ (fun s' caps => some (s', caps)) =
      (linkAt (canonicalize upper) b s).map fun r =>
        (r.2.2, Function.update (Function.update c₀ 1 (some r.1)) 2 (some r.2.1)) := by
  unfold linkRegex linkAt
  rw [matchRe_seq, matchRe_litsOnto, matchRe_seq, matchRe_litsOnto, matchRe_empty]
  cases stripCI (canonicalize upper) (b ++ "/projects/".toList) s with
  | none => rfl
  | some s₁ =>
    simp only []
    rw [matchRe_digitsGroup]
    · by_cases h₁ : s₁.takeWhile isDig = []
      · rw [if_pos h₁, if_pos h₁]; rfl
      · rw [if_neg h₁, if_neg h₁]
        cases stripCI (canonicalize upper) "/tickets/".toList (s₁.dropWhile isDig) with
        | none => rfl
        | some s₂ =>
          simp only []
          rw [matchRe_digitsGroup]
          · by_cases h₂ : s₂.takeWhile isDig = []
            · rw [if_pos h₂, if_pos h₂]; rfl
            · rw [if_neg h₂, if_neg h₂]; rfl
          · exact Or.inr fun _ _ => rfl
    · refine Or.inl fun x s' c hx => ?_
      rw [stripCI_tickets_dig upper x s' hx]

theorem matchAt_link (upper : Char → Str) (b s : Str) :
    RegExp.matchAt upper ⟨linkRegex b, 2, true⟩ s =
      (linkAt (canonicalize upper) b s).map (linkArray s) := by
  unfold RegExp.matchAt
  have hc : RegExp.canon upper ⟨linkRegex b, 2, true⟩ = canonicalize upper := rfl
  rw [hc]
  simp only []
  rw [matchRe_linkRegex, Option.map_map]
  cases linkAt (canonicalize upper) b s with
  | none => rfl
  | some r => rfl

theorem map_orElse {α β : Type} (f : α → β) (a : Option α) (g : Unit → Option α) :
    (a.orElse g).map f = (a.map f).orElse fun u => (g u).map f := by
  cases a <;> rfl

theorem exec_link (upper : Char → Str) (b s : Str) :
    (RegExp.exec upper ⟨linkRegex b, 2, true⟩ s).map arrayInfo =
      (findLink (canonicalize upper) b s).map fun r => some (linkInfo r) := by
  induction s with
  | nil =>
    rw [RegExp.exec, findLink, matchAt_link, Option.map_map]
    cases linkAt (canonicalize upper) b [] <;> rfl
  | cons x s ih =>
    rw [RegExp.exec, findLink, map_orElse, map_orElse, matchAt_link, Option.map_map, ih]
    cases linkAt (canonicalize upper) b (x :: s) <;> rfl

theorem jsOr_some_nil (s : Str) : jsOr (some s) [] = s := by
  cases s <;> rfl

/-- The extraction is the first link of the text, read directly; in particular
it returns for every base URL. -/
theorem extractTicketInfo_eq (upper : Char → Str) (b : Str) (text : Option Str) :
    TicketMatcher.extractTicketInfo upper ⟨b⟩ text =
      .ok ((findLink (canonicalize upper) b (jsOr text [])).map linkInfo) := by
  unfold TicketMatcher.extractTicketInfo
  rw [getRegex_eq]
  simp only [jsMatch]
  have h := exec_link upper b (jsOr text [])
  revert h
  cases RegExp.exec upper ⟨linkRegex b, 2, true⟩ (jsOr text []) with
  | none =>
    cases findLink (canonicalize upper) b (jsOr text []) with
    | none => intro _; rfl
    | some r => intro h; cases h
  | some ms =>
    cases findLink (canonicalize upper) b (jsOr text []) with
    | none => intro h; cases h
    | some r =>
      intro h
      simp only [Option.map_some', Option.some.injEq, arrayInfo] at h
      split at h
      · cases h
      · rename_i hlt
        simp only [Option.some.injEq] at h
        simp only [if_neg hlt, h, Option.map_some']

/-! ## Links, declaratively -/

theorem stripCI_eq_some_iff (canon : Char → Char) (cs s r : Str) :
    stripCI canon cs s = some r ↔ ∃ u, s = u ++ r ∧ u.map canon = cs.map canon := by
  induction cs generalizing s with
  | nil =>
    constructor
    · intro h
      simp only [stripCI, Option.some.injEq] at h
      exact ⟨[], by simp [h], rfl⟩
    · rintro ⟨u, hs, hu⟩
      have : u = [] := by simpa using hu
      subst this
      simp [stripCI, hs]
  | cons c cs ih =>
    cases s with
    | nil =>
      constructor
      · intro h; simp [stripCI] at h
      · rintro ⟨u, hs, hu⟩
        have hu0 : u = [] := by
          cases u with
          | nil => rfl
          | cons a u => simp at hs
        subst hu0
        simp at hu
    | cons x s =>
      simp only [stripCI]
      by_cases hx : (canon x == canon c) = true
      · rw [if_pos hx, ih]
        constructor
        · rintro ⟨u, hs, hu⟩
          exact ⟨x :: u, by simp [hs], by simp [hu, beq_iff_eq.mp hx]⟩
        · rintro ⟨u, hs, hu⟩
          cases u with
          | nil => simp at hu
          | cons a u =>
            simp only [List.cons_append, List.cons.injEq] at hs
            simp only [List.map_cons, List.cons.injEq] at hu
            exact ⟨u, hs.2, hu.2⟩
      · rw [if_neg hx]
        constructor
        · intro h; cases h
        · rintro ⟨u, hs, hu⟩
          cases u with
          | nil => simp at hu
          | cons a u =>
            simp only [List.cons_append, List.cons.injEq] at hs
            simp only [List.map_cons, List.cons.injEq] at hu
            exact absurd (by rw [hs.1, hu.1]; exact beq_self_eq_true _) hx

theorem mem_digitChars_iff (c : Char) : c ∈ digitChars ↔ isDig c = true := by
  simp [isDig]

theorem takeWhile_isDig_mem (s : Str) : ∀ c ∈ s.takeWhile isDig, c ∈ digitChars := by
  intro c hc
  exact (mem_digitChars_iff c).mpr (List.mem_takeWhile_imp hc)

theorem dropWhile_isDig_head (s : Str) : ∀ c ∈ (s.dropWhile isDig).head?, c ∉ digitChars := by
  intro c hc hd
  induction s with
  | nil => simp at hc
  | cons x s ih =>
    by_cases hx : isDig x = true
    · rw [List.dropWhile_cons_of_pos hx] at hc
      exact ih hc
    · rw [List.dropWhile_cons_of_neg hx] at hc
      simp only [List.head?_cons, Option.mem_def, Option.some.injEq] at hc
      subst hc
      exact hx ((mem_digitChars_iff _).mp hd)

/-- The longest run of digits of `p ++ q` is `p` when `p` is digits and `q`
does not begin with one. -/
theorem span_isDig_append (p q : Str) (hp : ∀ c ∈ p, c ∈ digitChars)
    (hq : ∀ c ∈ q.head?, c ∉ digitChars) :
    (p ++ q).takeWhile isDig = p ∧ (p ++ q).dropWhile isDig = q := by
  induction p with
  | nil =>
    cases q with
    | nil => exact ⟨rfl, rfl⟩
    | cons x q =>
      have hx : ¬ isDig x = true := fun h => hq x (by simp) ((mem_digitChars_iff x).mpr h)
      simp only [List.nil_append]
      rw [List.takeWhile_cons_of_neg hx, List.dropWhile_cons_of_neg hx]
      exact ⟨rfl, rfl⟩
  | cons a p ih =>
    have ha : isDig a = true := (mem_digitChars_iff a).mp (hp a (by simp))
    have ih' := ih fun c hc => hp c (by simp [hc])
    simp only [List.cons_append]
    rw [List.takeWhile_cons_of_pos ha, List.dropWhile_cons_of_pos ha, ih'.1, ih'.2]
    exact ⟨rfl, rfl⟩

/-- A text with the canonical form of a digit string is that digit string. -/
theorem map_canonicalize_eq_dig (upper : Char → Str) (u p : Str)
    (hp : ∀ c ∈ p, c ∈ digitChars)
    (h : u.map (canonicalize upper) = p.map (canonicalize upper)) : u = p := by
  induction p generalizing u with
  | nil => simpa using h
  | cons a p ih =>
    cases u with
    | nil => simp at h
    | cons x u =>
      simp only [List.map_cons, List.cons.injEq] at h
      have ha : isDig a = true := (mem_digitChars_iff a).mp (hp a (by simp))
      rw [canonicalize_eq_dig upper x a ha h.1, ih u (fun c hc => hp c (by simp [hc])) h.2]

/-- A text with the canonical form of `/tickets/` does not begin with a digit. -/
theorem tickets_head_not_dig (upper : Char → Str) (m q : Str)
    (hm : m.map (canonicalize upper) = "/tickets/".toList.map (canonicalize upper)) :
    ∀ c ∈ (m ++ q).head?, c ∉ digitChars := by
  intro c hc hd
  cases m with
  | nil => cases hm
  | cons x m =>
    have hx : canonicalize upper x = canonicalize upper '/' := (List.cons.inj hm).1
    simp only [List.cons_append, List.head?_cons, Option.mem_def, Option.some.injEq] at hc
    subst hc
    have := canonicalize_eq_dig upper '/' x ((mem_digitChars_iff x).mp hd) hx.symm
    subst this
    revert hd
    decide

/-- What `linkAt` returns is a link at the start of the input. -/
theorem linkAt_sound (canon : Char → Char) (b s : Str) (r : Str × Str × Str)
    (h : linkAt canon b s = some r) :
    ∃ u m₁ m₂ : Str, s = u ++ m₁ ++ r.1 ++ m₂ ++ r.2.1 ++ r.2.2 ∧
      u.map canon = b.map canon ∧ m₁.map canon = "/projects/".toList.map canon ∧
      m₂.map canon = "/tickets/".toList.map canon ∧
      r.1 ≠ [] ∧ (∀ c ∈ r.1, c ∈ digitChars) ∧ r.2.1 ≠ [] ∧ (∀ c ∈ r.2.1, c ∈ digitChars) ∧
      ∀ c ∈ r.2.2.head?, c ∉ digitChars := by
  unfold linkAt at h
  split at h
  · cases h
  · rename_i s₁ h₁
    split at h
    · cases h
    · rename_i hp
      split at h
      · cases h
      · rename_i s₂ h₂
        split at h
        · cases h
        · rename_i ht
          cases h
          rw [stripCI_eq_some_iff] at h₁ h₂
          obtain ⟨u₁, hs, hu₁⟩ := h₁
          obtain ⟨m₂, hs₂, hm₂⟩ := h₂
          rw [List.map_append] at hu₁
          obtain ⟨u, m₁, hu, huu, hmm⟩ := List.map_eq_append_iff.mp hu₁
          refine ⟨u, m₁, m₂, ?_, huu, hmm, hm₂, hp, takeWhile_isDig_mem s₁, ht,
            takeWhile_isDig_mem s₂, dropWhile_isDig_head s₂⟩
          have e₁ := List.takeWhile_append_dropWhile isDig s₁
          have e₂ := List.takeWhile_append_dropWhile isDig s₂
          simp only []
          rw [hs, hu]
          conv_lhs => rw [← e₁, hs₂, ← e₂]
          simp only [List.append_assoc]

/-- A link followed by anything is found by `linkAt`, the ticket digits
running on into the digits that follow. -/
theorem linkAt_of_parts (upper : Char → Str) (b u m₁ p m₂ t post : Str)
    (hu : u.map (canonicalize upper) = b.map (canonicalize upper))
    (hm₁ : m₁.map (canonicalize upper) = "/projects/".toList.map (canonicalize upper))
    (hm₂ : m₂.map (canonicalize upper) = "/tickets/".toList.map (canonicalize upper))
    (hp : p ≠ []) (hpd : ∀ c ∈ p, c ∈ digitChars)
    (ht : t ≠ []) (htd : ∀ c ∈ t, c ∈ digitChars) :
    linkAt (canonicalize upper) b (u ++ m₁ ++ p ++ m₂ ++ t ++ post) =
      some (p, t ++ post.takeWhile isDig, post.dropWhile isDig) := by
  have h₁ : stripCI (canonicalize upper) (b ++ "/projects/".toList)
      (u ++ m₁ ++ p ++ m₂ ++ t ++ post) = some (p ++ (m₂ ++ (t ++ post))) := by
    rw [stripCI_eq_some_iff]
    exact ⟨u ++ m₁, by simp only [List.append_assoc], by
      rw [List.map_append, List.map_append, hu, hm₁]⟩
  have hsp := span_isDig_append p (m₂ ++ (t ++ post)) hpd
    (tickets_head_not_dig upper m₂ (t ++ post) hm₂)
  have h₂ : stripCI (canonicalize upper) "/tickets/".toList (m₂ ++ (t ++ post)) =
      some (t ++ post) := by
    rw [stripCI_eq_some_iff]
    exact ⟨m₂, rfl, hm₂⟩
  have htd' : ∀ c ∈ t, isDig c = true := fun c hc => (mem_digitChars_iff c).mp (htd c hc)
  have ht₁ : (t ++ post).takeWhile isDig = t ++ post.takeWhile isDig :=
    List.takeWhile_append_of_pos htd'
  have ht₂ : (t ++ post).dropWhile isDig = post.dropWhile isDig :=
    List.dropWhile_append_of_pos htd'
  unfold linkAt
  rw [h₁]
  simp only []
  rw [hsp.1, hsp.2, if_neg hp, h₂]
  simp only []
  rw [ht₁, ht₂, if_neg (by simp [ht])]

/-- A link at the start of the input is found by `linkAt`. -/
theorem linkAt_of_isLink (upper : Char → Str) (b w post : Str)
    (h : IsLink (canonicalize upper) b w) :
    ∃ r, linkAt (canonicalize upper) b (w ++ post) = some r := by
  obtain ⟨p, t, hp, hpd, ht, htd, hw⟩ := h
  simp only [List.map_append] at hw
  obtain ⟨w₁, t', rfl, hw₁, ht'⟩ := List.map_eq_append_iff.mp hw
  obtain ⟨w₂, m₂, rfl, hw₂, hm₂⟩ := List.map_eq_append_iff.mp hw₁
  obtain ⟨w₃, p', rfl, hw₃, hp'⟩ := List.map_eq_append_iff.mp hw₂
  obtain ⟨u, m₁, rfl, hu, hm₁⟩ := List.map_eq_append_iff.mp hw₃
  have e₁ := map_canonicalize_eq_dig upper p' p hpd hp'
  have e₂ := map_canonicalize_eq_dig upper t' t htd ht'
  subst e₁; subst e₂
  exact ⟨_, linkAt_of_parts upper b u m₁ p' m₂ t' post hu hm₁ hm₂ hp hpd ht htd⟩

theorem linkBeginsAt_iff (upper : Char → Str) (b s : Str) :
    LinkBeginsAt (canonicalize upper) b s ↔ linkAt (canonicalize upper) b s ≠ none := by
  constructor
  · rintro ⟨w, post, rfl, hw⟩
    obtain ⟨r, hr⟩ := linkAt_of_isLink upper b w post hw
    rw [hr]
    exact Option.some_ne_none r
  · intro h
    cases hr : linkAt (canonicalize upper) b s with
    | none => exact absurd hr h
    | some r =>
      obtain ⟨u, m₁, m₂, hs, hu, hm₁, hm₂, hp, hpd, ht, htd, _⟩ :=
        linkAt_sound (canonicalize upper) b s r hr
      refine ⟨u ++ m₁ ++ r.1 ++ m₂ ++ r.2.1, r.2.2, hs, r.1, r.2.1, hp, hpd, ht, htd, ?_⟩
      simp only [List.map_append, hu, hm₁, hm₂]

theorem findLink_of_linkAt (canon : Char → Char) (b s : Str) (r : Str × Str × Str)
    (h : linkAt canon b s = some r) : findLink canon b s = some r := by
  cases s with
  | nil => exact h
  | cons x s => rw [findLink, h]; rfl

/-- The scan skips the positions no link begins at. -/
theorem findLink_append (canon : Char → Char) (b pre s : Str)
    (h : ∀ i, i < pre.length → linkAt canon b ((pre ++ s).drop i) = none) :
    findLink canon b (pre ++ s) = findLink canon b s := by
  induction pre with
  | nil => rfl
  | cons x pre ih =>
    have h0 := h 0 (by simp)
    simp only [List.drop_zero] at h0
    rw [List.cons_append] at h0 ⊢
    rw [findLink, h0]
    exact ih fun i hi => h (i + 1) (by simpa using hi)

/-- What the scan finds is a link that begins somewhere in the text. -/
theorem findLink_some (canon : Char → Char) (b s : Str) (r : Str × Str × Str)
    (h : findLink canon b s = some r) :
    ∃ pre s', s = pre ++ s' ∧ linkAt canon b s' = some r := by
  induction s with
  | nil => exact ⟨[], [], rfl, h⟩
  | cons x s ih =>
    rw [findLink] at h
    cases hl : linkAt canon b (x :: s) with
    | some r' =>
      rw [hl] at h
      exact ⟨[], x :: s, rfl, by rw [hl]; exact h⟩
    | none =>
      rw [hl] at h
      obtain ⟨pre, s', hs, hr⟩ := ih h
      exact ⟨x :: pre, s', by rw [hs]; rfl, hr⟩

/-- The scan finds something as soon as a link begins somewhere in the text. -/
theorem findLink_ne_none (canon : Char → Char) (b pre s : Str) (r : Str × Str × Str)
    (h : linkAt canon b s = some r) : findLink canon b (pre ++ s) ≠ none := by
  induction pre with
  | nil => rw [List.nil_append, findLink_of_linkAt canon b s r h]; exact Option.some_ne_none r
  | cons x pre ih =>
    rw [List.cons_append, findLink]
    cases linkAt canon b (x :: (pre ++ s)) with
    | none => exact ih
    | some r' => exact Option.some_ne_none r'

/-- The text contains a link exactly when the scan finds one. -/
theorem containsLink_iff (upper : Char → Str) (b text : Str) :
    ContainsLink (canonicalize upper) b text ↔ findLink (canonicalize upper) b text ≠ none := by
  constructor
  · rintro ⟨pre, w, post, rfl, hw⟩
    obtain ⟨r, hr⟩ := linkAt_of_isLink upper b w post hw
    rw [List.append_assoc]
    exact findLink_ne_none _ b pre (w ++ post) r hr
  · intro h
    cases hr : findLink (canonicalize upper) b text with
    | none => exact absurd hr h
    | some r =>
      obtain ⟨pre, s', hs, hl⟩ := findLink_some _ b text r hr
      obtain ⟨w, post, hw, hlink⟩ :=
        (linkBeginsAt_iff upper b s').mpr (by rw [hl]; exact Option.some_ne_none r)
      exact ⟨pre, w, post, by rw [hs, hw, List.append_assoc], hlink⟩

theorem findLink_nil (canon : Char → Char) (b : Str) : findLink canon b [] = none := by
  have h : stripCI canon (b ++ "/projects/".toList) [] = none := by
    cases b <;> rfl
  rw [findLink, linkAt, h]

/-! ## Case of Basic Latin letters -/

/-- The two characters differ at most in the case of a Basic Latin letter. -/
theorem canonicalize_congr (upper : Char → Str) (x y : Char) (h : asciiUpper x = asciiUpper y) :
    canonicalize upper x = canonicalize upper y := by
  rw [← canonicalize_asciiUpper upper x, ← canonicalize_asciiUpper upper y, h]

theorem isDig_congr (x y : Char) (h : asciiUpper x = asciiUpper y) : isDig x = isDig y := by
  rw [← asciiUpper_isDig x, ← asciiUpper_isDig y, h]

theorem map_canonicalize_congr (upper : Char → Str) (s s' : Str)
    (h : s.map asciiUpper = s'.map asciiUpper) :
    s.map (canonicalize upper) = s'.map (canonicalize upper) := by
  induction s generalizing s' with
  | nil =>
    cases s' with
    | nil => rfl
    | cons y s' => cases h
  | cons x s ih =>
    cases s' with
    | nil => cases h
    | cons y s' =>
      simp only [List.map_cons, List.cons.injEq] at h ⊢
      exact ⟨canonicalize_congr upper x y h.1, ih s' h.2⟩

theorem stripCI_congr_left (canon : Char → Char) (cs cs' s : Str)
    (h : cs.map canon = cs'.map canon) : stripCI canon cs s = stripCI canon cs' s := by
  induction cs generalizing cs' s with
  | nil =>
    cases cs' with
    | nil => rfl
    | cons y cs' => cases h
  | cons c cs ih =>
    cases cs' with
    | nil => cases h
    | cons c' cs' =>
      simp only [List.map_cons, List.cons.injEq] at h
      cases s with
      | nil => rfl
      | cons x s => simp only [stripCI, h.1, ih cs' s h.2]

theorem stripCI_congr_right (upper : Char → Str) (cs s s' : Str)
    (h : s.map asciiUpper = s'.map asciiUpper) :
    (stripCI (canonicalize upper) cs s).map (List.map asciiUpper) =
      (stripCI (canonicalize upper) cs s').map (List.map asciiUpper) := by
  induction cs generalizing s s' with
  | nil => simp only [stripCI, Option.map_some', h]
  | cons c cs ih =>
    cases s with
    | nil =>
      cases s' with
      | nil => rfl
      | cons y s' => cases h
    | cons x s =>
      cases s' with
      | nil => cases h
      | cons y s' =>
        simp only [List.map_cons, List.cons.injEq] at h
        simp only [stripCI, canonicalize_congr upper x y h.1]
        split
        · exact ih s s' h.2
        · rfl

theorem takeWhile_isDig_congr (s s' : Str) (h : s.map asciiUpper = s'.map asciiUpper) :
    s.takeWhile isDig = s'.takeWhile isDig ∧
      (s.dropWhile isDig).map asciiUpper = (s'.dropWhile isDig).map asciiUpper := by
  induction s generalizing s' with
  | nil =>
    cases s' with
    | nil => exact ⟨rfl, rfl⟩
    | cons y s' => cases h
  | cons x s ih =>
    cases s' with
    | nil => cases h
    | cons y s' =>
      have h' := h
      simp only [List.map_cons, List.cons.injEq] at h'
      have hd := isDig_congr x y h'.1
      by_cases hx : isDig x = true
      · have hy : isDig y = true := by rw [← hd]; exact hx
        have hxy : x = y := by
          rw [← asciiUpper_of_isDig x hx, ← asciiUpper_of_isDig y hy]; exact h'.1
        rw [List.takeWhile_cons_of_pos hx, List.takeWhile_cons_of_pos hy,
          List.dropWhile_cons_of_pos hx, List.dropWhile_cons_of_pos hy, hxy, (ih s' h'.2).1]
        exact ⟨rfl, (ih s' h'.2).2⟩
      · have hy : ¬ isDig y = true := by rw [← hd]; exact hx
        rw [List.takeWhile_cons_of_neg hx, List.takeWhile_cons_of_neg hy,
          List.dropWhile_cons_of_neg hx, List.dropWhile_cons_of_neg hy]
        exact ⟨rfl, h⟩

/-- The reference `linkAt` reads does not see the case of Basic Latin letters,
in the base URL or in the text. -/
theorem linkAt_congr (upper : Char → Str) (b b' s s' : Str)
    (hb : b.map asciiUpper = b'.map asciiUpper) (hs : s.map asciiUpper = s'.map asciiUpper) :
    (linkAt (canonicalize upper) b s).map linkInfo =
      (linkAt (canonicalize upper) b' s').map linkInfo := by
  have hcs : (b ++ "/projects/".toList).map (canonicalize upper) =
      (b' ++ "/projects/".toList).map (canonicalize upper) := by
    rw [List.map_append, List.map_append, map_canonicalize_congr upper b b' hb]
  have h₁ := stripCI_congr_right upper (b ++ "/projects/".toList) s s' hs
  rw [stripCI_congr_left _ _ _ s' hcs, stripCI_congr_left _ _ _ s hcs] at h₁
  unfold linkAt
  rw [stripCI_congr_left _ _ _ s hcs]
  cases e₁ : stripCI (canonicalize upper) (b' ++ "/projects/".toList) s with
  | none =>
    cases e₁' : stripCI (canonicalize upper) (b' ++ "/projects/".toList) s' with
    | none => rfl
    | some s₁' => rw [e₁, e₁'] at h₁; cases h₁
  | some s₁ =>
    cases e₁' : stripCI (canonicalize upper) (b' ++ "/projects/".toList) s' with
    | none => rw [e₁, e₁'] at h₁; cases h₁
    | some s₁' =>
      rw [e₁, e₁'] at h₁
      simp only [Option.map_some', Option.some.injEq] at h₁
      obtain ⟨hp, hr⟩ := takeWhile_isDig_congr s₁ s₁' h₁
      simp only []
      rw [hp]
      by_cases hp' : s₁'.takeWhile isDig = []
      · rw [if_pos hp', if_pos hp']
      · rw [if_neg hp', if_neg hp']
        have h₂ := stripCI_congr_right upper "/tickets/".toList _ _ hr
        cases e₂ : stripCI (canonicalize upper) "/tickets/".toList (s₁.dropWhile isDig) with
        | none =>
          cases e₂' : stripCI (canonicalize upper) "/tickets/".toList
              (s₁'.dropWhile isDig) with
          | none => rfl
          | some s₂' => rw [e₂, e₂'] at h₂; cases h₂
        | some s₂ =>
          cases e₂' : stripCI (canonicalize upper) "/tickets/".toList
              (s₁'.dropWhile isDig) with
          | none => rw [e₂, e₂'] at h₂; cases h₂
          | some s₂' =>
            rw [e₂, e₂'] at h₂
            simp only [Option.map_some', Option.some.injEq] at h₂
            obtain ⟨ht, _⟩ := takeWhile_isDig_congr s₂ s₂' h₂
            simp only []
            rw [ht]
            by_cases ht' : s₂'.takeWhile isDig = []
            · rw [if_pos ht', if_pos ht']
            · rw [if_neg ht', if_neg ht']
              rfl

theorem findLink_congr (upper : Char → Str) (b b' s s' : Str)
    (hb : b.map asciiUpper = b'.map asciiUpper) (hs : s.map asciiUpper = s'.map asciiUpper) :
    (findLink (canonicalize upper) b s).map linkInfo =
      (findLink (canonicalize upper) b' s').map linkInfo := by
  induction s generalizing s' with
  | nil =>
    cases s' with
    | nil => rw [findLink_nil, findLink_nil]
    | cons y s' => cases hs
  | cons x s ih =>
    cases s' with
    | nil => cases hs
    | cons y s' =>
      have hl := linkAt_congr upper b b' (x :: s) (y :: s') hb hs
      have hs' : s.map asciiUpper = s'.map asciiUpper := by
        simp only [List.map_cons, List.cons.injEq] at hs
        exact hs.2
      rw [findLink, findLink, map_orElse, map_orElse, hl, ih s' hs']

theorem jsOr_congr (text text' : Option Str)
    (h : text.map (List.map asciiUpper) = text'.map (List.map asciiUpper)) :
    (jsOr text []).map asciiUpper = (jsOr text' []).map asciiUpper := by
  cases text with
  | none =>
    cases text' with
    | none => rfl
    | some t' => cases h
  | some t =>
    cases text' with
    | none => cases h
    | some t' =>
      rw [jsOr_some_nil, jsOr_some_nil]
      simpa using h

/-! ## The claims about the matcher -/

/-- C1: for every base URL `b` (whatever characters it has), non-empty digit
strings `p` and `t`, and text `pre ++ b ++ "/projects/" ++ p ++ "/tickets/" ++ t ++ post`
in which `post` does not begin with a digit and no link begins before the end
of `pre`, `extractTicketInfo` returns exactly `{ projectId: p, ticketId: t }`,
the digit strings verbatim. -/
theorem extractTicketInfo_link (upper : Char → Str) (b pre p t post : Str)
    (hp : p ≠ []) (hpd : ∀ c ∈ p, c ∈ digitChars)
    (ht : t ≠ []) (htd : ∀ c ∈ t, c ∈ digitChars)
    (hpost : ∀ c ∈ post.head?, c ∉ digitChars)
    (hfirst : ∀ i, i < pre.length → ¬ LinkBeginsAt (canonicalize upper) b
      ((pre ++ (b ++ "/projects/".toList ++ p ++ "/tickets/".toList ++ t ++ post)).drop i)) :
    TicketMatcher.extractTicketInfo upper ⟨b⟩
        (some (pre ++ (b ++ "/projects/".toList ++ p ++ "/tickets/".toList ++ t ++ post))) =
      .ok (some { projectId := some p, ticketId := some t }) := by
  have hl := linkAt_of_parts upper b b "/projects/".toList p "/tickets/".toList t post
    rfl rfl rfl hp hpd ht htd
  have hsp := span_isDig_append [] post (fun c hc => by simp at hc) hpost
  simp only [List.nil_append] at hsp
  rw [hsp.1, hsp.2, List.append_nil] at hl
  rw [extractTicketInfo_eq, jsOr_some_nil, findLink_append, findLink_of_linkAt _ _ _ _ hl]
  · rfl
  · intro i hi
    have := hfirst i hi
    rw [linkBeginsAt_iff] at this
    exact not_not.mp this

/-- The example of C1: a link with project `42` and ticket `007` inside a sentence. -/
theorem extractTicketInfo_link_witness :
    TicketMatcher.extractTicketInfo (fun c => [c]) ⟨"https://tracker.example.com".toList⟩
        (some ("Fixes ".toList ++ ("https://tracker.example.com".toList ++ "/projects/".toList
          ++ "42".toList ++ "/tickets/".toList ++ "007".toList ++ " now".toList))) =
      .ok (some { projectId := some "42".toList, ticketId := some "007".toList }) :=
  extractTicketInfo_link (fun c => [c]) "https://tracker.example.com".toList "Fixes ".toList
    "42".toList "007".toList " now".toList (by decide) (by decide) (by decide) (by decide)
    (by decide)
    (fun i hi => by
      rw [linkBeginsAt_iff]
      have h : ∀ j, j < 6 → linkAt (canonicalize fun c => [c])
          "https://tracker.example.com".toList
          (("Fixes ".toList ++ ("https://tracker.example.com".toList ++ "/projects/".toList
            ++ "42".toList ++ "/tickets/".toList ++ "007".toList ++ " now".toList)).drop j)
          = none := by decide
      exact not_not.mpr (h i hi))

/-- C2: `extractTicketInfo` returns no reference whenever the text has no
substring that is, up to letter case, the base URL followed by `/projects/`,
digits, `/tickets/` and digits.  A base URL's characters count as themselves
(the text `https://trackerXexampleXcom/projects/1/tickets/2` has no link of
`https://tracker.example.com`), and an empty or absent text gives no reference
for every base URL. -/
theorem extractTicketInfo_none (upper : Char → Str) (b text : Str)
    (h : ¬ ContainsLink (canonicalize upper) b text) :
    TicketMatcher.extractTicketInfo upper ⟨b⟩ (some text) = .ok none ∧
    TicketMatcher.extractTicketInfo upper ⟨b⟩ (some []) = .ok none ∧
    TicketMatcher.extractTicketInfo upper ⟨b⟩ none = .ok none ∧
    TicketMatcher.extractTicketInfo upper ⟨"https://tracker.example.com".toList⟩
      (some "https://trackerXexampleXcom/projects/1/tickets/2".toList) = .ok none := by
  refine ⟨?_, ?_, ?_, ?_⟩
  · rw [containsLink_iff, not_not] at h
    rw [extractTicketInfo_eq, jsOr_some_nil, h]
    rfl
  · rw [extractTicketInfo_eq, jsOr_some_nil, findLink_nil]
    rfl
  · rw [extractTicketInfo_eq]
    have : jsOr none [] = [] := rfl
    rw [this, findLink_nil]
    rfl
  · rfl

/-- The example of C2: a text without a link, with dots read as themselves. -/
theorem extractTicketInfo_none_witness :
    TicketMatcher.extractTicketInfo (fun c => [c]) ⟨"https://tracker.example.com".toList⟩
        (some "see https://trackerXexampleXcom/projects/1/tickets/2".toList) = .ok none :=
  (extractTicketInfo_none (fun c => [c]) "https://tracker.example.com".toList
    "see https://trackerXexampleXcom/projects/1/tickets/2".toList
    (by rw [containsLink_iff, not_not]; decide)).1

/-- C3: the extraction does not see the case of Basic Latin letters: changing
it in the text or in the base URL changes neither whether a reference is found
nor the reference; `HTTPS://TRACKER.EXAMPLE.COM/projects/1/tickets/10` gives
project `1` and ticket `10` for the base URL `https://tracker.example.com`. -/
theorem extractTicketInfo_case (upper : Char → Str) (b b' : Str) (text text' : Option Str)
    (hb : b.map asciiUpper = b'.map asciiUpper)
    (ht : text.map (List.map asciiUpper) = text'.map (List.map asciiUpper)) :
    TicketMatcher.extractTicketInfo upper ⟨b⟩ text =
      TicketMatcher.extractTicketInfo upper ⟨b'⟩ text' ∧
    TicketMatcher.extractTicketInfo upper ⟨"https://tracker.example.com".toList⟩
        (some "HTTPS://TRACKER.EXAMPLE.COM/projects/1/tickets/10".toList) =
      .ok (some { projectId := some "1".toList, ticketId := some "10".toList }) := by
  constructor
  · rw [extractTicketInfo_eq, extractTicketInfo_eq,
      findLink_congr upper b b' _ _ hb (jsOr_congr text text' ht)]
  · rfl

/-- The example of C3: the same link with the host in the other case, and with
the path in upper case. -/
theorem extractTicketInfo_case_witness :
    TicketMatcher.extractTicketInfo (fun c => [c]) ⟨"https://tracker.example.com".toList⟩
        (some "Fixes https://tracker.example.com/projects/1/tickets/10".toList) =
      TicketMatcher.extractTicketInfo (fun c => [c]) ⟨"https://Tracker.Example.COM".toList⟩
        (some "FIXES HTTPS://TRACKER.EXAMPLE.COM/PROJECTS/1/TICKETS/10".toList) :=
  (extractTicketInfo_case (fun c => [c]) "https://tracker.example.com".toList
    "https://Tracker.Example.COM".toList
    (some "Fixes https://tracker.example.com/projects/1/tickets/10".toList)
    (some "FIXES HTTPS://TRACKER.EXAMPLE.COM/PROJECTS/1/TICKETS/10".toList)
    (by decide) (by decide)).1

/-! ## The claims about the verifier -/

theorem failures_append (a b : List Event) : failures (a ++ b) = failures a ++ failures b := by
  induction a with
  | nil => rfl
  | cons e a ih => cases e <;> simp [failures, ih]

theorem comments_append (a b : List Event) : comments (a ++ b) = comments a ++ comments b := by
  induction a with
  | nil => rfl
  | cons e a ih => cases e <;> simp [comments, ih]

theorem lookups_append (a b : List Event) : lookups (a ++ b) = lookups a ++ lookups b := by
  induction a with
  | nil => rfl
  | cons e a ih => cases e <;> simp [lookups, ih]

theorem verifyTicket_fetch_error (w : World) (api : TicketAPI) (p t : Option Str)
    (e : JsError) (h : w.fetch (api.request p t) = .error e) :
    api.verifyTicket w p t =
      ({ isValid := false, status := none, error := some e.message },
       [.fetch (api.request p t), .debug ("API error: ".toList ++ e.message)]) := by
  unfold TicketAPI.verifyTicket
  simp only [h]

theorem verifyTicket_text_error (w : World) (api : TicketAPI) (p t : Option Str)
    (status : Nat) (e : JsError)
    (h : w.fetch (api.request p t) = .ok { status := status, text := .error e }) :
    api.verifyTicket w p t =
      ({ isValid := false, status := none, error := some e.message },
       [.fetch (api.request p t),
        .debug ("Response: ".toList ++ renderBool (Response.ok ⟨status, .error e⟩)
          ++ " - ".toList ++ renderNat status),
        .debug ("API error: ".toList ++ e.message)]) := by
  unfold TicketAPI.verifyTicket
  simp only [h]

theorem verifyTicket_ok (w : World) (api : TicketAPI) (p t : Option Str)
    (status : Nat) (body : Str)
    (h : w.fetch (api.request p t) = .ok { status := status, text := .ok body }) :
    api.verifyTicket w p t =
      ({ isValid := decide (200 ≤ status ∧ status ≤ 299), status := some status, error := none },
       [.fetch (api.request p t),
        .debug ("Response: ".toList ++ renderBool (Response.ok ⟨status, .ok body⟩)
          ++ " - ".toList ++ renderNat status),
        .debug ("Response body: ".toList ++ body)]) := by
  unfold TicketAPI.verifyTicket
  simp only [h, Response.ok]

/-- What `verifyTicket` did is one lookup, no failure mark and no comment. -/
theorem verifyTicket_events (w : World) (api : TicketAPI) (p t : Option Str) :
    lookups (api.verifyTicket w p t).2 = [api.request p t] ∧
      failures (api.verifyTicket w p t).2 = [] ∧ comments (api.verifyTicket w p t).2 = [] := by
  cases h : w.fetch (api.request p t) with
  | error e => rw [verifyTicket_fetch_error w api p t e h]; exact ⟨rfl, rfl, rfl⟩
  | ok response =>
    obtain ⟨status, text⟩ := response
    cases text with
    | error e => rw [verifyTicket_text_error w api p t status e h]; exact ⟨rfl, rfl, rfl⟩
    | ok body => rw [verifyTicket_ok w api p t status body h]; exact ⟨rfl, rfl, rfl⟩

/-- C4: for a response received without a transport failure, `verifyTicket`
gives a valid result when the status is in 200..299 and otherwise an invalid
result with exactly the received status and no error detail. -/
theorem verifyTicket_status (w : World) (api : TicketAPI) (p t : Option Str) (status : Nat)
    (body : Str) (h : w.fetch (api.request p t) = .ok { status := status, text := .ok body }) :
    (200 ≤ status ∧ status ≤ 299 → (api.verifyTicket w p t).1.isValid = true) ∧
    (¬ (200 ≤ status ∧ status ≤ 299) →
      (api.verifyTicket w p t).1 = { isValid := false, status := some status, error := none }) := by
  rw [verifyTicket_ok w api p t status body h]
  constructor
  · intro h2
    simp [h2]
  · intro h2
    simp [h2]

/-- The examples of C4: status 404 gives an invalid result with status 404,
status 200 a valid one. -/
theorem verifyTicket_status_witness :
    (TicketAPI.verifyTicket (demoWorld none none (answerWith 404))
        ⟨"https://tracker.example.com/api".toList, []⟩ (some "1".toList) (some "10".toList)).1 =
      { isValid := false, status := some 404, error := none } ∧
    (TicketAPI.verifyTicket (demoWorld none none (answerWith 200))
        ⟨"https://tracker.example.com/api".toList, []⟩ (some "1".toList)
        (some "10".toList)).1.isValid = true :=
  ⟨(verifyTicket_status (demoWorld none none (answerWith 404))
      ⟨"https://tracker.example.com/api".toList, []⟩ (some "1".toList) (some "10".toList)
      404 "{}".toList rfl).2 (by decide),
   (verifyTicket_status (demoWorld none none (answerWith 200))
      ⟨"https://tracker.example.com/api".toList, []⟩ (some "1".toList) (some "10".toList)
      200 "{}".toList rfl).1 (by decide)⟩

/-- C5, as the code has it: for every exception of the HTTP call or of reading
the response, `verifyTicket` returns a result that is not valid, without a
status, whose error detail is the message of the exception; the detail is not
empty when the message is not. -/
theorem verifyTicket_unreachable (w : World) (api : TicketAPI) (p t : Option Str)
    (error : JsError)
    (h : w.fetch (api.request p t) = .error error ∨
      ∃ status, w.fetch (api.request p t) = .ok { status := status, text := .error error }) :
    (api.verifyTicket w p t).1 =
      { isValid := false, status := none, error := some error.message } ∧
    (error.message ≠ [] →
      ∃ detail, (api.verifyTicket w p t).1.error = some detail ∧ detail ≠ []) := by
  have h1 : (api.verifyTicket w p t).1 =
      { isValid := false, status := none, error := some error.message } := by
    rcases h with h | ⟨status, h⟩
    · rw [verifyTicket_fetch_error w api p t error h]
    · rw [verifyTicket_text_error w api p t status error h]
  exact ⟨h1, fun hne => ⟨error.message, by rw [h1], hne⟩⟩

/-- An example of C5: a connection that is refused. -/
theorem verifyTicket_unreachable_witness :
    (TicketAPI.verifyTicket (demoWorld none none (failWith "connect ECONNREFUSED".toList))
        ⟨"https://tracker.example.com/api".toList, []⟩ (some "1".toList) (some "10".toList)).1 =
      { isValid := false, status := none, error := some "connect ECONNREFUSED".toList } :=
  (verifyTicket_unreachable (demoWorld none none (failWith "connect ECONNREFUSED".toList))
    ⟨"https://tracker.example.com/api".toList, []⟩ (some "1".toList) (some "10".toList)
    ⟨"connect ECONNREFUSED".toList, none⟩ (Or.inl rfl)).1

/-- C5 as stated fails: an exception whose message is empty gives an error
detail that is empty. -/
theorem verifyTicket_unreachable_empty :
    (TicketAPI.verifyTicket (demoWorld none none (failWith []))
        ⟨"https://tracker.example.com/api".toList, []⟩ (some "1".toList) (some "10".toList)).1 =
      { isValid := false, status := none, error := some [] } := by
  rfl

/-- C6: the one request of `verifyTicket` is a GET whose headers have
`Content-Type: application/json`, and have `X-API-KEY` exactly when the API key
is not empty, with the key as its value; the key of the configuration is the
environment's `API_KEY`, or empty when that is missing. -/
theorem verifyTicket_request (w : World) (api : TicketAPI) (p t : Option Str) :
    lookups (api.verifyTicket w p t).2 = [api.request p t] ∧
    (api.request p t).method = "GET".toList ∧
    ("Content-Type".toList, "application/json".toList) ∈ (api.request p t).headers ∧
    ((∃ v, ("X-API-KEY".toList, v) ∈ (api.request p t).headers) ↔ api.apiKey ≠ []) ∧
    (∀ v, ("X-API-KEY".toList, v) ∈ (api.request p t).headers → v = api.apiKey) ∧
    (api.apiKey = [] →
      (api.request p t).headers = [("Content-Type".toList, "application/json".toList)]) ∧
    (∀ action, TicketVerificationAction.new w = .ok action →
      action.api.apiKey = jsOr w.env.API_KEY []) := by
  have hne : ("X-API-KEY".toList, api.apiKey) ≠
      ("Content-Type".toList, "application/json".toList) := by
    intro h
    have := (Prod.mk.inj h).1
    revert this
    decide
  have hne' : ∀ v : Str, ("X-API-KEY".toList, v) ≠
      ("Content-Type".toList, "application/json".toList) := by
    intro v h
    have := (Prod.mk.inj h).1
    revert this
    decide
  refine ⟨(verifyTicket_events w api p t).1, rfl, List.mem_cons_self _ _, ?_, ?_, ?_, ?_⟩
  · cases hk : api.apiKey with
    | nil =>
      simp only [TicketAPI.request, hk, truthy, ne_eq, not_true_eq_false, iff_false, not_exists,
        List.mem_singleton]
      exact fun v => hne' v
    | cons c k =>
      simp only [TicketAPI.request, hk, truthy, ne_eq, reduceCtorEq, not_false_eq_true, iff_true]
      exact ⟨c :: k, by simp⟩
  · intro v hv
    cases hk : api.apiKey with
    | nil =>
      simp only [TicketAPI.request, hk, truthy, List.mem_singleton] at hv
      exact absurd hv (hne' v)
    | cons c k =>
      simp only [TicketAPI.request, hk, truthy, List.mem_cons, List.mem_singleton,
        List.not_mem_nil, or_false] at hv
      rcases hv with hv | hv
      · exact absurd hv (hne' v)
      · exact (Prod.mk.inj hv).2
  · intro hk
    simp only [TicketAPI.request, hk, truthy]
  · intro action ha
    unfold TicketVerificationAction.new Config.new at ha
    simp only [] at ha
    split at ha
    · cases ha
    · rename_i config hc
      split at hc
      · cases hc
      · split at hc
        · cases hc
        · cases hc
          cases ha
          rfl

/-- The examples of C6: with the key `secret` the request has the header
`X-API-KEY: secret`; without a key its only header is the content type. -/
theorem verifyTicket_request_witness :
    ("X-API-KEY".toList, "secret".toList) ∈
      (TicketAPI.request ⟨"https://tracker.example.com/api".toList, "secret".toList⟩
        (some "1".toList) (some "10".toList)).headers ∧
    (TicketAPI.request ⟨"https://tracker.example.com/api".toList, []⟩
        (some "1".toList) (some "10".toList)).headers =
      [("Content-Type".toList, "application/json".toList)] := by
  have h₁ := verifyTicket_request (demoWorld none none (answerWith 200))
    ⟨"https://tracker.example.com/api".toList, "secret".toList⟩
    (some "1".toList) (some "10".toList)
  have h₂ := verifyTicket_request (demoWorld none none (answerWith 200))
    ⟨"https://tracker.example.com/api".toList, []⟩ (some "1".toList) (some "10".toList)
  obtain ⟨v, hv⟩ := h₁.2.2.2.1.mpr (by decide)
  have hv' := h₁.2.2.2.2.1 v hv
  rw [hv'] at hv
  exact ⟨hv, h₂.2.2.2.2.2.1 rfl⟩

/-! ## The claims about the run -/

/-- The constructor succeeds in the example world, with `demoAction`. -/
theorem new_demoWorld (apiKey body : Option Str) (fetch : Request → Except JsError Response) :
    TicketVerificationAction.new (demoWorld apiKey body fetch) = .ok (demoAction apiKey body) :=
  rfl


/-- What `addComment` did is one comment attempt with the given body, no
failure mark and no lookup. -/
theorem addComment_events (c : GitHubCommenter) (message : Str) :
    ∃ tail, c.addComment message =
        .createComment { issue_number := c.context.issueNumber, owner := c.context.owner,
                         repo := c.context.repo, body := message } :: tail ∧
      failures tail = [] ∧ comments tail = [] ∧ lookups tail = [] := by
  unfold GitHubCommenter.addComment
  simp only []
  split
  · exact ⟨_, rfl, rfl, rfl, rfl⟩
  · exact ⟨_, rfl, rfl, rfl, rfl⟩

/-- What `handleMissingTicket` did: the failure mark with the reason, then one
comment attempt with the configured message. -/
theorem handleMissingTicket_events (action : TicketVerificationAction) (reason : Str) :
    ∃ tail, action.handleMissingTicket reason =
        [.error ("❌ Ticket verification failed: ".toList ++ reason), .setFailed reason,
         .createComment { issue_number := action.commenter.context.issueNumber,
                          owner := action.commenter.context.owner,
                          repo := action.commenter.context.repo,
                          body := action.config.message }] ++ tail ∧
      failures tail = [] ∧ comments tail = [] ∧ lookups tail = [] := by
  obtain ⟨tail, h, h1, h2, h3⟩ := addComment_events action.commenter action.config.message
  refine ⟨tail, ?_, h1, h2, h3⟩
  unfold TicketVerificationAction.handleMissingTicket
  rw [h]
  rfl

/-- C7: when the matcher finds no reference in the pull-request description
(an absent description is the empty string), `run` marks the run failed with
exactly `No ticket link found in the pull request description.`, then attempts
exactly one comment, whose body is the configured message, and issues no
tracker lookup. -/
theorem run_no_reference (w : World) (action : TicketVerificationAction)
    (h : action.matcher.extractTicketInfo w.upper
      (some (jsOr (action.config.context.pull_request.bind (·.body)) [])) = .ok none) :
    (∃ tail, action.run w =
        [.error ("❌ Ticket verification failed: ".toList
            ++ "No ticket link found in the pull request description.".toList),
         .setFailed "No ticket link found in the pull request description.".toList,
         .createComment { issue_number := action.commenter.context.issueNumber,
                          owner := action.commenter.context.owner,
                          repo := action.commenter.context.repo,
                          body := action.config.message }] ++ tail ∧
      failures tail = [] ∧ comments tail = [] ∧ lookups tail = []) ∧
    failures (action.run w) = ["No ticket link found in the pull request description.".toList] ∧
    comments (action.run w) = [action.config.message] ∧
    lookups (action.run w) = [] ∧
    (∀ m : TicketMatcher, m.extractTicketInfo w.upper (some (jsOr none [])) = .ok none) := by
  have hrun : action.run w = action.handleMissingTicket
      "No ticket link found in the pull request description.".toList := by
    unfold TicketVerificationAction.run
    simp only [h]
  obtain ⟨tail, ht, h1, h2, h3⟩ := handleMissingTicket_events action
    "No ticket link found in the pull request description.".toList
  rw [hrun, ht]
  refine ⟨⟨tail, rfl, h1, h2, h3⟩, ?_, ?_, ?_, ?_⟩
  · rw [failures_append, h1]; rfl
  · rw [comments_append, h2]; rfl
  · rw [lookups_append, h3]; rfl
  · intro m
    obtain ⟨b⟩ := m
    have hn : jsOr none [] = [] := rfl
    rw [extractTicketInfo_eq, hn, jsOr_some_nil, findLink_nil]
    rfl

/-- The example of C7: the description `see JIRA-123`. -/
theorem run_no_reference_witness :
    failures ((demoAction none (some "see JIRA-123".toList)).run
        (demoWorld none (some "see JIRA-123".toList) (answerWith 200))) =
      ["No ticket link found in the pull request description.".toList] ∧
    comments ((demoAction none (some "see JIRA-123".toList)).run
        (demoWorld none (some "see JIRA-123".toList) (answerWith 200))) =
      ["Please link a ticket.".toList] ∧
    lookups ((demoAction none (some "see JIRA-123".toList)).run
        (demoWorld none (some "see JIRA-123".toList) (answerWith 200))) = [] :=
  (run_no_reference (demoWorld none (some "see JIRA-123".toList) (answerWith 200))
    (demoAction none (some "see JIRA-123".toList)) (by decide)).2.imp_right
      fun h => ⟨h.1, h.2.1⟩

/-- C8, as the code has it: when the pull-request description contains a link,
the matcher extracts a reference, and whenever the tracker answers the lookup
of that reference with a status in 200..299 and the body of the response is
read without a failure, `run` ends in success: the run is not marked failed,
no comment is attempted, and the lookup is the only one. -/
theorem run_valid (w : World) (action : TicketVerificationAction)
    (h : ContainsLink (canonicalize w.upper) action.matcher.baseUrl
      (jsOr (action.config.context.pull_request.bind (·.body)) [])) :
    ∃ info, action.matcher.extractTicketInfo w.upper
        (some (jsOr (action.config.context.pull_request.bind (·.body)) [])) = .ok (some info) ∧
      ∀ status body,
        w.fetch (action.api.request info.projectId info.ticketId) =
          .ok { status := status, text := .ok body } →
        200 ≤ status → status ≤ 299 →
        failures (action.run w) = [] ∧ comments (action.run w) = [] ∧
          lookups (action.run w) = [action.api.request info.projectId info.ticketId] := by
  rw [containsLink_iff] at h
  have hm : action.matcher = ⟨action.matcher.baseUrl⟩ := rfl
  cases hr : findLink (canonicalize w.upper) action.matcher.baseUrl
      (jsOr (action.config.context.pull_request.bind (·.body)) []) with
  | none => exact absurd hr h
  | some r =>
    have he : action.matcher.extractTicketInfo w.upper
        (some (jsOr (action.config.context.pull_request.bind (·.body)) [])) =
        .ok (some (linkInfo r)) := by
      rw [hm, extractTicketInfo_eq, jsOr_some_nil, hr]
      rfl
    refine ⟨linkInfo r, he, ?_⟩
    intro status body hf h1 h2
    have hrun : action.run w = action.verifyTicket w (linkInfo r) := by
      unfold TicketVerificationAction.run
      simp only [he]
    rw [hrun]
    unfold TicketVerificationAction.verifyTicket
    simp only [verifyTicket_ok w action.api _ _ status body hf, h1, h2, and_self, decide_True,
      if_true]
    refine ⟨?_, ?_, ?_⟩
    · rfl
    · rfl
    · rfl

/-- The example of C8: `Fixes https://tracker.example.com/projects/1/tickets/10`
and a tracker that answers 200. -/
theorem run_valid_witness :
    failures ((demoAction none
        (some "Fixes https://tracker.example.com/projects/1/tickets/10".toList)).run
      (demoWorld none (some "Fixes https://tracker.example.com/projects/1/tickets/10".toList)
        (answerWith 200))) = [] ∧
    comments ((demoAction none
        (some "Fixes https://tracker.example.com/projects/1/tickets/10".toList)).run
      (demoWorld none (some "Fixes https://tracker.example.com/projects/1/tickets/10".toList)
        (answerWith 200))) = [] := by
  obtain ⟨info, _, h⟩ := run_valid
    (demoWorld none (some "Fixes https://tracker.example.com/projects/1/tickets/10".toList)
      (answerWith 200))
    (demoAction none (some "Fixes https://tracker.example.com/projects/1/tickets/10".toList))
    ((containsLink_iff _ _ _).mpr (by decide))
  have h' := h 200 "{}".toList rfl (by decide) (by decide)
  exact ⟨h'.1, h'.2.1⟩

/-- C8 as stated fails: the description has a link and the tracker answers the
lookup with status 200, but reading the body throws; `verifyTicket` of the API
client gives a result that is not valid, and `run` marks the run failed and
posts the comment. -/
theorem run_valid_unreadable :
    (TicketAPI.verifyTicket (demoWorld none none (unreadableWith 200 "terminated".toList))
        (demoAction none none).api (some "1".toList) (some "10".toList)).1 =
      { isValid := false, status := none, error := some "terminated".toList } ∧
    failures ((demoAction none
        (some "Fixes https://tracker.example.com/projects/1/tickets/10".toList)).run
      (demoWorld none (some "Fixes https://tracker.example.com/projects/1/tickets/10".toList)
        (unreadableWith 200 "terminated".toList))) =
      ["Error verifying ticket: terminated for Project ID: 1, Ticket ID: 10".toList] ∧
    comments ((demoAction none
        (some "Fixes https://tracker.example.com/projects/1/tickets/10".toList)).run
      (demoWorld none (some "Fixes https://tracker.example.com/projects/1/tickets/10".toList)
        (unreadableWith 200 "terminated".toList))) = ["Please link a ticket.".toList] := by
  refine ⟨rfl, ?_, ?_⟩
  · decide
  · decide

/-- What `verifyTicket` does with a verification of `(p, t)` that is not valid:
it marks the run failed with one reason, which ends in the reference, then
attempts one comment with the configured message.  The reason of a result
without an error detail prints the status; the reason of a result with a
non-empty error detail `d` is `Error verifying ticket: d for Project ID: p,
Ticket ID: t`. -/
theorem verifyTicket_failure (w : World) (action : TicketVerificationAction) (p t : Str)
    (h : (action.api.verifyTicket w (some p) (some t)).1.isValid = false) :
    (∃ pre tail, action.verifyTicket w ⟨some p, some t⟩ =
        pre ++ [.setFailed
            (failureReason (action.api.verifyTicket w (some p) (some t)).1 (some p) (some t)),
          .createComment { issue_number := action.commenter.context.issueNumber,
                           owner := action.commenter.context.owner,
                           repo := action.commenter.context.repo,
                           body := action.config.message }] ++ tail ∧
        failures pre = [] ∧ comments pre = [] ∧ failures tail = [] ∧ comments tail = []) ∧
    failures (action.verifyTicket w ⟨some p, some t⟩) =
      [failureReason (action.api.verifyTicket w (some p) (some t)).1 (some p) (some t)] ∧
    comments (action.verifyTicket w ⟨some p, some t⟩) = [action.config.message] ∧
    (∃ m, failureReason (action.api.verifyTicket w (some p) (some t)).1 (some p) (some t) =
      m ++ " for Project ID: ".toList ++ p ++ ", Ticket ID: ".toList ++ t) ∧
    (∀ c, (action.api.verifyTicket w (some p) (some t)).1.error = none →
      (action.api.verifyTicket w (some p) (some t)).1.status = some c →
      failureReason (action.api.verifyTicket w (some p) (some t)).1 (some p) (some t) =
        "Invalid ticket: Status ".toList ++ renderNat c ++ " undefined for Project ID: ".toList
          ++ p ++ ", Ticket ID: ".toList ++ t) ∧
    (∀ d, (action.api.verifyTicket w (some p) (some t)).1.error = some d → d ≠ [] →
      failureReason (action.api.verifyTicket w (some p) (some t)).1 (some p) (some t) =
        "Error verifying ticket: ".toList ++ d ++ " for Project ID: ".toList
          ++ p ++ ", Ticket ID: ".toList ++ t) := by
  obtain ⟨_, hf, hc⟩ := verifyTicket_events w action.api (some p) (some t)
  have hev : action.verifyTicket w ⟨some p, some t⟩ =
      .info ("Verifying ticket - Project ID: ".toList ++ p ++ ", Ticket ID: ".toList ++ t) ::
        (action.api.verifyTicket w (some p) (some t)).2 ++
        action.handleMissingTicket
          (failureReason (action.api.verifyTicket w (some p) (some t)).1 (some p) (some t)) := by
    unfold TicketVerificationAction.verifyTicket
    simp only [h, Bool.false_eq_true, if_false, render]
  obtain ⟨tail, ht, h1, h2, _⟩ := handleMissingTicket_events action
    (failureReason (action.api.verifyTicket w (some p) (some t)).1 (some p) (some t))
  have hpre : failures (Event.info ("Verifying ticket - Project ID: ".toList ++ p
      ++ ", Ticket ID: ".toList ++ t) :: (action.api.verifyTicket w (some p) (some t)).2) = [] ∧
      comments (Event.info ("Verifying ticket - Project ID: ".toList ++ p
      ++ ", Ticket ID: ".toList ++ t) :: (action.api.verifyTicket w (some p) (some t)).2) = [] :=
    ⟨hf, hc⟩
  rw [hev, ht]
  refine ⟨⟨(Event.info ("Verifying ticket - Project ID: ".toList ++ p
      ++ ", Ticket ID: ".toList ++ t) :: (action.api.verifyTicket w (some p) (some t)).2) ++
      [Event.error ("❌ Ticket verification failed: ".toList ++
        failureReason (action.api.verifyTicket w (some p) (some t)).1 (some p) (some t))],
    tail, ?_, ?_, ?_, h1, h2⟩, ?_, ?_, ⟨_, rfl⟩, ?_, ?_⟩
  · simp only [List.append_assoc, List.cons_append, List.nil_append, List.singleton_append]
  · rw [failures_append, hpre.1]; rfl
  · rw [comments_append, hpre.2]; rfl
  · rw [failures_append, failures_append, hpre.1, h1]; rfl
  · rw [comments_append, comments_append, hpre.2, h2]; rfl
  · intro c he hs
    simp only [failureReason, he, hs, truthy, render, renderOptNat, List.append_assoc]
    rfl
  · intro d he hd
    cases d with
    | nil => exact absurd rfl hd
    | cons x d => simp only [failureReason, he, truthy, render, List.append_assoc]

/-- C9: the claim fails on the code where the exception of the lookup has an
empty message.  The result of the API client is not valid and has the error
detail the empty string; `result.error` is then falsy, the status branch is
taken, and the run is
marked failed with `Invalid ticket: Status undefined undefined for Project ID:
1, Ticket ID: 10`, an invalid-ticket reason for an unreachable tracker.  With
a message that is not empty the same path gives the transport-error reason. -/
theorem verifyTicket_failure_empty :
    (TicketAPI.verifyTicket (demoWorld none none (failWith []))
        (demoAction none none).api (some "1".toList) (some "10".toList)).1 =
      { isValid := false, status := none, error := some [] } ∧
    failures ((demoAction none none).verifyTicket (demoWorld none none (failWith []))
        ⟨some "1".toList, some "10".toList⟩) =
      ["Invalid ticket: Status undefined undefined for Project ID: 1, Ticket ID: 10".toList] ∧
    failures ((demoAction none none).verifyTicket
        (demoWorld none none (failWith "connect ECONNREFUSED".toList))
        ⟨some "1".toList, some "10".toList⟩) =
      ["Error verifying ticket: connect ECONNREFUSED for Project ID: 1, Ticket ID: 10".toList] := by
  refine ⟨rfl, ?_, ?_⟩
  · decide
  · decide

theorem truthy_eq_some (a : Option Str) (v : Str) (h : truthy a = some v) :
    a = some v ∧ v ≠ [] := by
  cases a with
  | none => cases h
  | some s =>
    cases s with
    | nil => cases h
    | cons c s =>
      simp only [truthy, Option.some.injEq] at h
      subst h
      exact ⟨rfl, List.cons_ne_nil _ _⟩

/-- C10: when the base URL or the access token is missing or empty, the
constructor of `Config` throws, so `run` throws before anything is done to the
outside: no lookup, no comment attempt, nothing at all.  Conversely a
configuration is constructed only from a base URL and an access token that are
both present and not empty. -/
theorem config_required (w : World)
    (h : w.env.BASE_URL = none ∨ w.env.BASE_URL = some [] ∨
      w.env.GITHUB_TOKEN = none ∨ w.env.GITHUB_TOKEN = some []) :
    (∃ e, Config.new w = .error e) ∧
    (∃ e, TicketVerificationAction.new w = .error e) ∧
    (∃ e, run w = (.error e, [])) ∧
    (∀ (w' : World) (cfg : Config), Config.new w' = .ok cfg →
      w'.env.BASE_URL = some cfg.baseUrl ∧ cfg.baseUrl ≠ [] ∧
      w'.env.GITHUB_TOKEN = some cfg.token ∧ cfg.token ≠ []) := by
  have hconv : ∀ (w' : World) (cfg : Config), Config.new w' = .ok cfg →
      w'.env.BASE_URL = some cfg.baseUrl ∧ cfg.baseUrl ≠ [] ∧
      w'.env.GITHUB_TOKEN = some cfg.token ∧ cfg.token ≠ [] := by
    intro w' cfg hc
    unfold Config.new at hc
    simp only [] at hc
    split at hc
    · cases hc
    · split at hc
      · cases hc
      · rename_i b t hv
        cases hc
        unfold Config.validateConfig at hv
        split at hv
        · cases hv
        · rename_i b' hb
          split at hv
          · cases hv
          · rename_i t' ht
            cases hv
            obtain ⟨hb1, hb2⟩ := truthy_eq_some _ _ hb
            obtain ⟨ht1, ht2⟩ := truthy_eq_some _ _ ht
            exact ⟨hb1, hb2, ht1, ht2⟩
  have herr : ∃ e, Config.new w = .error e := by
    cases hc : Config.new w with
    | error e => exact ⟨e, rfl⟩
    | ok cfg =>
      obtain ⟨h1, h2, h3, h4⟩ := hconv w cfg hc
      rcases h with h | h | h | h
      · rw [h] at h1; cases h1
      · rw [h] at h1; exact absurd (Option.some.inj h1).symm h2
      · rw [h] at h3; cases h3
      · rw [h] at h3; exact absurd (Option.some.inj h3).symm h4
  obtain ⟨e, he⟩ := herr
  have hnew : TicketVerificationAction.new w = .error e := by
    unfold TicketVerificationAction.new
    rw [he]
  refine ⟨⟨e, he⟩, ⟨e, hnew⟩, ⟨e, ?_⟩, hconv⟩
  unfold run
  rw [hnew]

/-- The example of C10: no base URL in the environment. -/
theorem config_required_witness :
    ∃ e, run { demoWorld none (some "see JIRA-123".toList) (answerWith 200) with
        env := { BASE_URL := none, API_URL := none, API_KEY := none, MESSAGE := none,
                 GITHUB_TOKEN := some "ghp_token".toList } } = (.error e, []) :=
  (config_required { demoWorld none (some "see JIRA-123".toList) (answerWith 200) with
        env := { BASE_URL := none, API_URL := none, API_KEY := none, MESSAGE := none,
                 GITHUB_TOKEN := some "ghp_token".toList } } (Or.inl rfl)).2.2.1

end TicketAction
